import Mathlib

/-!
Verification of the Athena core: the runner safety layer (src/runner/safety.py),
the runner-connector poller backoff (src/runner_connector/poller.py), the
orchestrator graph (src/orchestrator/graph.py) and the execution bridge
(src/orchestrator/execution_bridge.py), shallowly embedded in Lean.

Python strings are modelled as Lean `String` (or `List Char` where character
level reasoning is needed); Python `re.search` is modelled by a Brzozowski
derivative regex engine over `List Char`, with each source pattern transcribed
as a regex AST. Remote calls (LLM agents, the runner RPC surface) are opaque
collaborators and are modelled as oracles supplied to the embedded functions.
-/

namespace Athena

/-! ## A tiny regex engine (Brzozowski derivatives)

Used to embed the `re` patterns of src/runner/safety.py.  `cls p` is a
character class; literals are built from classes so that `re.IGNORECASE`
can be expressed by case-insensitive character classes. -/

inductive RE where
  | emp : RE
  | eps : RE
  | cls : (Char → Bool) → RE
  | cat : RE → RE → RE
  | alt : RE → RE → RE
  | star : RE → RE

def RE.nullable : RE → Bool
  | .emp => false
  | .eps => true
  | .cls _ => false
  | .cat a b => a.nullable && b.nullable
  | .alt a b => a.nullable || b.nullable
  | .star _ => true

def RE.deriv : RE → Char → RE
  | .emp, _ => .emp
  | .eps, _ => .emp
  | .cls p, c => if p c then .eps else .emp
  | .cat a b, c =>
      if a.nullable then .alt (.cat (a.deriv c) b) (b.deriv c) else .cat (a.deriv c) b
  | .alt a b, c => .alt (a.deriv c) (b.deriv c)
  | .star a, c => .cat (a.deriv c) (.star a)

/-- Full match of `r` against the whole list. -/
def RE.matchesL (r : RE) (l : List Char) : Bool :=
  (l.foldl RE.deriv r).nullable

/-- Does some (possibly empty) prefix of `l` match `r`? -/
def RE.somePre : RE → List Char → Bool
  | r, [] => r.nullable
  | r, c :: t => r.nullable || (r.deriv c).somePre t

/-- `re.search` semantics: some substring of `l` matches `r`. -/
def reSearch (r : RE) (l : List Char) : Bool :=
  l.tails.any (fun t => r.somePre t)

/-- Some substring of `l` that ends exactly at the end of `l` matches `r`. -/
def reSearchAtEnd (r : RE) (l : List Char) : Bool :=
  l.tails.any (fun t => r.matchesL t)

/-- Python `\s` (ASCII range, as used on shell command strings). -/
def pyIsSpace (c : Char) : Bool :=
  c = ' ' || c = '\t' || c = '\n' || c = '\r' || c = Char.ofNat 11 || c = Char.ofNat 12

/-- Python `\w` / `\b` word characters (ASCII range). -/
def isWordChar (c : Char) : Bool :=
  c.isAlphanum || c = '_'

/-- A single literal character under `re.IGNORECASE`. -/
def ichar (c : Char) : RE :=
  .cls (fun x => x.toLower == c.toLower)

/-- A literal string under `re.IGNORECASE`. -/
def relit (s : String) : RE :=
  s.data.foldr (fun c r => .cat (ichar c) r) .eps

/-- `\s+` -/
def wsPlus : RE := .cat (.cls pyIsSpace) (.star (.cls pyIsSpace))

/-- `\S+` -/
def nonWsPlus : RE :=
  .cat (.cls (fun c => !pyIsSpace c)) (.star (.cls (fun c => !pyIsSpace c)))

/-- `.*` — in Python, `.` does not match a newline. -/
def dotStar : RE := .star (.cls (fun c => c != '\n'))

/-! ## src/runner/safety.py — blocked patterns -/

/-- `(main|master)` -/
def mainOrMaster : RE := .alt (relit "main") (relit "master")

/-- Core of `_PROTECTED_BRANCH_PUSH`: `git\s+push\s+\S+\s+(main|master)` —
the trailing `\b` is handled by `matches_protected_branch_push`. -/
def protectedBranchPushCore : RE :=
  .cat (relit "git") (.cat wsPlus (.cat (relit "push")
    (.cat wsPlus (.cat nonWsPlus (.cat wsPlus mainOrMaster)))))

/-- `_PROTECTED_BRANCH_PUSH.search`: the final `\b` holds when the match is
followed by a non-word character or ends the string (the character before the
boundary is always a word character here). -/
def matches_protected_branch_push (s : String) : Bool :=
  reSearch (.cat protectedBranchPushCore (.cls (fun c => !isWordChar c))) s.data
    || reSearchAtEnd protectedBranchPushCore s.data

/-- `_PROTECTED_MERGE`: `git\s+merge\s+.*(main|master)` -/
def protectedMergeRE : RE :=
  .cat (relit "git") (.cat wsPlus (.cat (relit "merge")
    (.cat wsPlus (.cat dotStar mainOrMaster))))

def matches_protected_merge (s : String) : Bool :=
  reSearch protectedMergeRE s.data

/-- `_DESTRUCTIVE_FS`: `(rm\s+-rf\s+[/\\]|rmdir\s+/s|del\s+/s|format\s+[a-z]:)` -/
def destructiveFsRE : RE :=
  .alt
    (.alt
      (.cat (relit "rm") (.cat wsPlus (.cat (relit "-rf")
        (.cat wsPlus (.cls (fun c => c = '/' || c = '\\'))))))
      (.cat (relit "rmdir") (.cat wsPlus (relit "/s"))))
    (.alt
      (.cat (relit "del") (.cat wsPlus (relit "/s")))
      (.cat (relit "format")
        (.cat wsPlus (.cat (.cls (fun c => 'a' ≤ c.toLower && c.toLower ≤ 'z')) (relit ":")))))

def matches_destructive_fs (s : String) : Bool :=
  reSearch destructiveFsRE s.data

/-- `_DEPLOY`: `(vercel\s+--prod|fly\s+deploy|docker\s+push|kubectl\s+apply)` -/
def deployRE : RE :=
  .alt
    (.alt (.cat (relit "vercel") (.cat wsPlus (relit "--prod")))
          (.cat (relit "fly") (.cat wsPlus (relit "deploy"))))
    (.alt (.cat (relit "docker") (.cat wsPlus (relit "push")))
          (.cat (relit "kubectl") (.cat wsPlus (relit "apply"))))

def matches_deploy (s : String) : Bool :=
  reSearch deployRE s.data

/-- `validate_command`: `some msg` models raising `SafetyError(msg)`,
`none` models returning normally. -/
def validate_command (command : String) : Option String :=
  if matches_protected_branch_push command then
    some ("Blocked: pushing directly to main/master is not allowed. "
      ++ "Use a feature branch and create a PR instead.")
  else if matches_protected_merge command then
    some ("Blocked: merging to main/master is not allowed via runner. "
      ++ "Use GitHub PR review workflow.")
  else if matches_destructive_fs command then
    some ("Blocked: destructive filesystem command detected. "
      ++ "This operation is not permitted via remote runner.")
  else if matches_deploy command then
    some ("Blocked: deployment commands are not allowed via runner. "
      ++ "Deploy manually or through CI/CD.")
  else none

/-! ## Python string helpers (`strip`, `lower`, `split`) -/

/-- Remove trailing characters satisfying `p`. -/
def rstripP (p : Char → Bool) : List Char → List Char
  | [] => []
  | c :: t =>
      let r := rstripP p t
      if r = [] ∧ p c then [] else c :: r

/-- Python `str.strip()` (whitespace, both ends). -/
def pyStrip (l : List Char) : List Char :=
  rstripP pyIsSpace (l.dropWhile pyIsSpace)

/-- Python `str.lower()` (ASCII-faithful). -/
def pyLower (l : List Char) : List Char :=
  l.map Char.toLower

/-- Python `str.split()` with no argument: split on whitespace runs,
dropping empty pieces.  `acc` carries the current word, reversed. -/
def pyWordsAux : List Char → List Char → List (List Char)
  | [], acc => if acc = [] then [] else [acc.reverse]
  | c :: t, acc =>
      if pyIsSpace c then
        if acc = [] then pyWordsAux t [] else acc.reverse :: pyWordsAux t []
      else pyWordsAux t (c :: acc)

def pyWords (l : List Char) : List (List Char) :=
  pyWordsAux l []

/-- Python `in` on strings: `pat` occurs as a contiguous substring of `hay`. -/
def containsSub (hay pat : List Char) : Bool :=
  hay.tails.any (fun t => pat.isPrefixOf t)

/-- `validate_branch_for_push`: `some msg` models raising `SafetyError`. -/
def validate_branch_for_push (branch : String) : Option String :=
  let normalized := pyLower (pyStrip branch.data)
  if normalized = "main".data ∨ normalized = "master".data then
    some ("Blocked: cannot push to protected branch " ++ branch
      ++ ". Create a feature branch instead.")
  else none

/-! ## src/orchestrator/execution_bridge.py — `_generate_branch_name`

`time.time()` is modelled by the explicit parameter `tsec`; the `source`
parameter is unused in the source function's body as well. -/

def generate_branch_name (plan : String) (source : String) (tsec : ℕ) : String :=
  let _ := source
  let cleaned := (pyLower plan.data).filter (fun c => c.isAlphanum || pyIsSpace c)
  let slug := (List.intercalate [ '-' ] ((pyWords cleaned).take 5)).take 40
  let ts := tsec % 100000
  String.mk ("athena/".data ++ slug ++ "-".data ++ (Nat.repr ts).data)

/-! ## src/runner_connector/poller.py — `RunnerState` and backoff

Intervals are modelled as rationals (the source uses Python floats, but all
values occurring here are `base · 2^k` capped at `max`, which the rational
model reflects exactly).  Timestamps and error strings are dropped: they do
not feed back into the transition logic. -/

/-- Module constants `_BASE_INTERVAL` and `_MAX_INTERVAL` (seconds). -/
def BASE_INTERVAL : ℚ := 10
def MAX_INTERVAL : ℚ := 300

structure RunnerState where
  online : Bool := false
  consecutive_failures : ℕ := 0
  reconnect_attempts : ℕ := 0
  current_interval : ℚ := BASE_INTERVAL
  deriving DecidableEq, Repr

/-- `RunnerState.__init__` — note `current_interval` starts at the module
constant `_BASE_INTERVAL`, not at the poller's configured base interval. -/
def RunnerState.init : RunnerState := {}

/-- `RunnerPoller.__init__(client, interval, max_interval)` sets
`self.state = RunnerState()`: the configured base is NOT written into the
initial state. -/
def RunnerPoller.initState (base maxI : ℚ) : RunnerState :=
  let _ := base
  let _ := maxI
  RunnerState.init

/-- `RunnerPoller._check_once`, as a pure transition on `RunnerState`.
`success` is whether the health call returned without raising. -/
def checkOnce (base maxI : ℚ) (st : RunnerState) (success : Bool) : RunnerState :=
  if success then
    { st with
      online := true
      consecutive_failures := 0
      current_interval := base
      reconnect_attempts := if st.online then st.reconnect_attempts else 0 }
  else
    { st with
      online := false
      consecutive_failures := st.consecutive_failures + 1
      reconnect_attempts := st.reconnect_attempts + 1
      current_interval := min (base * 2 ^ st.consecutive_failures) maxI }

/-- A run of consecutive `_check_once` outcomes (the poll loop). -/
def runChecks (base maxI : ℚ) (st : RunnerState) (outcomes : List Bool) : RunnerState :=
  outcomes.foldl (checkOnce base maxI) st

/-! ## src/orchestrator/state.py — `SubtaskResult` and the workflow state

`WorkflowState` is a dict at runtime; we model the fields the graph nodes
touch.  `results` (a Python dict keyed by subtask id) is an association list
in insertion order; verdicts are plain strings as at runtime. -/

structure SubtaskResult where
  subtask_id : String
  agent_type : String
  description : String
  output : String := ""
  review_verdict : String := "pending"
  review_feedback : String := ""
  review_score : Int := 0
  attempts : ℕ := 0
  deriving DecidableEq, Repr

/-- One entry of the planner's `subtasks` list (`{id, agent, description,
depends_on, priority}`); `priority` is never read by the graph. -/
structure SubtaskSpec where
  id : String
  agent : String
  description : String
  depends_on : List String := []
  deriving DecidableEq, Repr

structure OState where
  phase : String
  subtasks : List SubtaskSpec
  results : List (String × SubtaskResult)
  ready_queue : List String
  max_revisions : ℕ
  deriving DecidableEq, Repr

/-- `dict.get` on the results mapping. -/
def lookupR : List (String × SubtaskResult) → String → Option SubtaskResult
  | [], _ => none
  | (k, v) :: t, sid => if k = sid then some v else lookupR t sid

/-- `dict[sid] = r` on the results mapping (keys are unique in a dict). -/
def updateR : List (String × SubtaskResult) → String → SubtaskResult → List (String × SubtaskResult)
  | [], _, _ => []
  | (k, v) :: t, sid, r => if k = sid then (k, r) :: t else (k, v) :: updateR t sid r

/-- Outcome of one `agent.chat` call inside `_execute_single`:
the returned text, or the message of a raised exception. -/
inductive ExecOutcome where
  | ok : String → ExecOutcome
  | err : String → ExecOutcome
  deriving DecidableEq, Repr

/-- The opaque collaborators consulted during one graph step: the stop
signal and remaining budget at this batch boundary, the executor outcome per
subtask id, and the reviewer's parsed `{verdict, feedback, score}` (after the
source's `.get` defaults) per (description, output) pair. -/
structure StepEnv where
  stop : Bool := false
  budget : Option Int := none
  exec : String → ExecOutcome := fun _ => ExecOutcome.ok ""
  verdict : String → String → String := fun _ _ => "approve"
  feedback : String → String → String := fun _ _ => ""
  score : String → String → Int := fun _ _ => 7

/-- The keys of the agent pool built by `_create_agents`. -/
def default_agents : List String := ["manager", "frontend", "backend", "tester"]

/-- `not result.output or result.output.startswith("Error")` (`startswith`
is modelled at the character level). -/
def isEmptyOrError (s : String) : Bool :=
  s = "" || "Error".data.isPrefixOf s.data

/-- `_execute_single` (src/orchestrator/graph.py:84-112).  The prompt built
from the description and prior feedback is consumed by the oracle `env.exec`;
it does not otherwise touch the state.  On a missing agent or a raised chat
exception the attempts counter is NOT incremented. -/
def execute_single (agents : List String) (env : StepEnv) (sid : String)
    (r : SubtaskResult) : SubtaskResult :=
  if r.agent_type ∉ agents then
    { r with
      output := "Error: no agent of type \'" ++ r.agent_type ++ "\'"
      review_verdict := "redo" }
  else
    match env.exec sid with
    | .ok out => { r with output := out, attempts := r.attempts + 1 }
    | .err m => { r with
        output := "Error during execution: " ++ m
        review_verdict := "redo" }

/-- The dispatch loop of `_execute_parallel_sync`: each ready subtask id that
is present in the results mapping is run and its entry replaced. -/
def execFold (agents : List String) (env : StepEnv)
    (results : List (String × SubtaskResult)) (ready : List String) :
    List (String × SubtaskResult) :=
  ready.foldl (fun acc sid =>
    match lookupR acc sid with
    | some r => updateR acc sid (execute_single agents env sid r)
    | none => acc) results

/-- `_execute_parallel_sync` (src/orchestrator/graph.py:115-159).  The
thread pool runs each ready subtask independently on its own result object;
a sequential fold over the distinct ids is an equivalent serialization. -/
def execute_parallel_sync (agents : List String) (env : StepEnv)
    (ready : List String) (results : List (String × SubtaskResult)) :
    List (String × SubtaskResult) :=
  if ready = [] then results
  else if env.stop then results
  else if (match env.budget with | some b => decide (b ≤ 0) | none => false : Bool) then results
  else execFold agents env results ready

/-- `executing_node` (src/orchestrator/graph.py:234-264). -/
def executing_node (agents : List String) (env : StepEnv) (s : OState) : OState :=
  if s.ready_queue = [] then { s with phase := "reviewing", ready_queue := [] }
  else
    { s with
      phase := "reviewing"
      results := execute_parallel_sync agents env s.ready_queue s.results
      ready_queue := [] }

/-- The body of `reviewing_node`'s per-subtask loop: the updated result and
whether the subtask was appended to `needs_revision`. -/
def review_single (maxRev : ℕ) (env : StepEnv) (r : SubtaskResult) :
    SubtaskResult × Bool :=
  if r.review_verdict ≠ "pending" ∧ isEmptyOrError r.output = false
      ∧ r.review_verdict = "approve" then
    (r, false)
  else if isEmptyOrError r.output then
    if r.attempts < maxRev then ({ r with review_verdict := "redo" }, true)
    else ({ r with review_verdict := "approve" }, false)
  else
    let v0 := env.verdict r.description r.output
    let v := if (v0 = "revise" ∨ v0 = "redo") ∧ maxRev ≤ r.attempts then "approve" else v0
    ({ r with
        review_verdict := v
        review_feedback := env.feedback r.description r.output
        review_score := env.score r.description r.output },
      v = "revise" ∨ v = "redo")

/-- The next-ready-set loop of `reviewing_node` (src/orchestrator/graph.py:
331-337): starting from `needs_revision`, append every subtask not approved
and not already queued whose (non-empty) dependencies are all approved. -/
def depReady (approved : List String) (subtasks : List SubtaskSpec)
    (q : List String) : List String :=
  subtasks.foldl (fun q st =>
    if st.id ∈ approved ∨ st.id ∈ q then q
    else if st.depends_on ≠ [] ∧ st.depends_on.all (fun d => approved.contains d) then
      q ++ [st.id]
    else q) q

/-- `reviewing_node` (src/orchestrator/graph.py:285-339). -/
def reviewing_node (env : StepEnv) (s : OState) : OState :=
  let rev := s.results.map (fun kv => (kv.1, review_single s.max_revisions env kv.2))
  let results := rev.map (fun kv => (kv.1, kv.2.1))
  let needs_revision := (rev.filter (fun kv => kv.2.2)).map (fun kv => kv.1)
  if results.all (fun kv => kv.2.review_verdict = "approve") then
    { s with phase := "synthesizing", results := results, ready_queue := [] }
  else
    let approved :=
      (results.filter (fun kv => kv.2.review_verdict = "approve")).map (fun kv => kv.1)
    { s with
      phase := "executing"
      results := results
      ready_queue := depReady approved s.subtasks needs_revision }

/-- One transition of the compiled graph after planning: `executing_node`,
`reviewing_node` (with `route_after_review`), or `synthesizing_node` (which
only flips the phase to `done`; the synthesized text is external output). -/
def graphStep (agents : List String) (env : StepEnv) (s : OState) : OState :=
  if s.phase = "executing" then executing_node agents env s
  else if s.phase = "reviewing" then reviewing_node env s
  else if s.phase = "synthesizing" then { s with phase := "done" }
  else s

/-- Iterated graph transitions; each step consults that step's oracles. -/
def runSteps (agents : List String) (s : OState) : List StepEnv → OState
  | [] => s
  | env :: rest => runSteps agents (graphStep agents env s) rest

/-- `planning_node` (src/orchestrator/graph.py:202-231), with the planner's
decomposition supplied as data. -/
def planning_node (decomp : List SubtaskSpec) (s : OState) : OState :=
  { s with
    phase := "executing"
    subtasks := decomp
    results := decomp.map (fun st =>
      (st.id, { subtask_id := st.id, agent_type := st.agent,
                description := st.description : SubtaskResult }))
    ready_queue := (decomp.filter (fun st => st.depends_on = [])).map (fun st => st.id) }

/-! ## src/orchestrator/execution_bridge.py — `execute_plan`

The runner RPC surface is an oracle: each call kind has its own response
stream indexed by how many calls of that kind were already made (the call
order is deterministic, so this is equivalent to a single sequential oracle).
Every runner invocation is recorded in a trace, in order. -/

structure GitStatusR where
  branch : String
  dirtyCount : ℕ
  changedFiles : List String
  deriving DecidableEq, Repr

structure CmdResultR where
  exitCode : Int
  stdout : String
  stderr : String
  durationMs : Int
  deriving DecidableEq, Repr

/-- `RunnerOfflineError` versus `RunnerError(detail)`; the payload is what
`str(e)` renders to. -/
inductive RunnerErr where
  | offline : String → RunnerErr
  | rejected : String → RunnerErr
  deriving DecidableEq, Repr

def RunnerErr.toMessage : RunnerErr → String
  | .offline m => m
  | .rejected m => m

inductive RunnerCallKind where
  | health : RunnerCallKind
  | gitStatus : RunnerCallKind
  | runCmd : String → RunnerCallKind
  | runClaude : RunnerCallKind
  | pushPr : RunnerCallKind
  deriving DecidableEq, Repr

structure RunnerOracle where
  healthOk : Bool := true
  gitStatusResp : ℕ → Except RunnerErr GitStatusR := fun _ => .error (.offline "offline")
  cmdResp : ℕ → Except RunnerErr CmdResultR := fun _ => .error (.offline "offline")
  claudeResp : ℕ → Except RunnerErr CmdResultR := fun _ => .error (.offline "offline")
  prResp : Except RunnerErr String := .error (.offline "offline")

/-- Per-kind call counters plus the ordered trace of runner calls made. -/
structure BridgeRun where
  trace : List RunnerCallKind := []
  nStatus : ℕ := 0
  nCmd : ℕ := 0
  nClaude : ℕ := 0
  deriving Repr

def callHealth (b : BridgeRun) : BridgeRun :=
  { b with trace := b.trace ++ [RunnerCallKind.health] }

def callStatus (o : RunnerOracle) (b : BridgeRun) :
    Except RunnerErr GitStatusR × BridgeRun :=
  (o.gitStatusResp b.nStatus,
   { b with trace := b.trace ++ [RunnerCallKind.gitStatus], nStatus := b.nStatus + 1 })

def callCmd (o : RunnerOracle) (cmd : String) (b : BridgeRun) :
    Except RunnerErr CmdResultR × BridgeRun :=
  (o.cmdResp b.nCmd,
   { b with trace := b.trace ++ [RunnerCallKind.runCmd cmd], nCmd := b.nCmd + 1 })

def callClaude (o : RunnerOracle) (b : BridgeRun) :
    Except RunnerErr CmdResultR × BridgeRun :=
  (o.claudeResp b.nClaude,
   { b with trace := b.trace ++ [RunnerCallKind.runClaude], nClaude := b.nClaude + 1 })

def callPr (o : RunnerOracle) (b : BridgeRun) :
    Except RunnerErr String × BridgeRun :=
  (o.prResp, { b with trace := b.trace ++ [RunnerCallKind.pushPr] })

/-- One entry of a plan's `subtasks` list as consumed by the bridge
(`subtask.get("id", ...)`, `.get("description", "")`, `.get("agent",
"backend")` are modelled by total fields). -/
structure SubtaskIn where
  id : String
  description : String
  agent : String := "backend"
  deriving DecidableEq, Repr

/-- One entry of `result.subtask_results` (the `agent` key is absent in the
empty-description entry; we model it as `""` there). -/
structure SubtaskOutcome where
  id : String
  agent : String := ""
  success : Bool
  output : String := ""
  error : String := ""
  deriving DecidableEq, Repr

/-- The `result.git_status` snapshot dict; `none` models the dict never
being populated (`{}`), under which `.get("dirty", 0)` reads 0. -/
structure GitSnapshot where
  branch : String
  dirty : ℕ
  files : List String
  deriving DecidableEq, Repr

def dirtyOf : Option GitSnapshot → ℕ
  | none => 0
  | some g => g.dirty

/-- `ExecutionResult` (duration is wall-clock and modelled as 0). -/
structure ExecutionResult where
  project_id : String
  branch : String := ""
  subtask_results : List SubtaskOutcome := []
  git_status : Option GitSnapshot := none
  pr_url : String := ""
  success : Bool := false
  error : String := ""
  deriving DecidableEq, Repr

def MAX_SUBTASKS_PER_EXECUTION : ℕ := 10

def SELF_EDIT_PROTECTED_FILES : List String :=
  ["src/runner/safety.py", "src/orchestrator/execution_bridge.py", ".env", "deploy/"]

/-- `project_id in ("ai-companion", "athena")`. -/
def is_self_edit (project_id : String) : Bool :=
  project_id = "ai-companion" || project_id = "athena"

/-- `_check_self_edit_safety`: every (subtask, protected entry) pair where the
lower-cased description contains the lower-cased protected path. -/
def check_self_edit_safety (subtasks : List SubtaskIn) : List String :=
  (subtasks.map (fun st =>
    (SELF_EDIT_PROTECTED_FILES.filter (fun p =>
        containsSub (pyLower st.description.data) (pyLower p.data))).map (fun p =>
      "Subtask \'" ++ st.id ++ "\' references " ++ p))).flatten

/-- Python: join the violation strings with a comma separator. -/
def joinComma (l : List String) : String :=
  String.intercalate ", " l

/-- The subtask loop of `execute_plan` (lines 196-259): threads the runner
call state, accumulates `subtask_results` and the `all_success` flag. -/
def subtask_loop (o : RunnerOracle) :
    List SubtaskIn → BridgeRun → List SubtaskOutcome → Bool →
    BridgeRun × List SubtaskOutcome × Bool
  | [], b, acc, allS => (b, acc, allS)
  | st :: rest, b, acc, allS =>
      if st.description = "" then
        subtask_loop o rest b
          (acc ++ [{ id := st.id, success := false, error := "Empty description" }]) allS
      else
        match callClaude o b with
        | (.ok cr, b1) =>
            subtask_loop o rest b1
              (acc ++ [{ id := st.id, agent := st.agent,
                         success := cr.exitCode = 0,
                         output := cr.stdout.take 2000,
                         error := if cr.exitCode ≠ 0 then cr.stderr.take 500 else "" }])
              (allS && (cr.exitCode = 0))
        | (.error e, b1) =>
            subtask_loop o rest b1
              (acc ++ [{ id := st.id, agent := st.agent, success := false,
                         output := "", error := e.toMessage }])
              false

/-- `_run_tests`: a raised runner error is converted to `exitCode = 1`. -/
def run_tests (o : RunnerOracle) (b : BridgeRun) : CmdResultR × BridgeRun :=
  match callCmd o "python -m pytest tests/ -x -q" b with
  | (.ok t, b1) => (t, b1)
  | (.error e, b1) => ({ exitCode := 1, stdout := "", stderr := e.toMessage,
                         durationMs := 0 }, b1)

/-- The PR / commit+merge finalization (lines 297-358), given the result so
far, the branch name and `all_success`; returns the updated result. -/
def finalize_pr (o : RunnerOracle) (auto_pr auto_approve : Bool) (plan : String)
    (branch_name : String) (allS : Bool) (result : ExecutionResult)
    (b : BridgeRun) : ExecutionResult × BridgeRun :=
  let should_pr := (auto_pr || auto_approve) && allS
  if should_pr ∧ 0 < dirtyOf result.git_status then
    match callPr o b with
    | (.ok url, b1) => ({ result with pr_url := url }, b1)
    | (.error e, b1) =>
        let d := e.toMessage
        -- commit locally only when the failure does not look like a PR-step
        -- failure after a successful push
        let b2 :=
          if containsSub d.data "PR creation failed".data
              || containsSub (pyLower d.data) "gh".data then b1
          else (callCmd o ("git commit -m \"[Athena] " ++ plan.take 60 ++ "\"") b1).2
        -- merge to main so changes are not lost (each call may raise; a raise
        -- aborts the try block, skipping the branch annotation)
        match callCmd o "git checkout main" b2 with
        | (.ok _, b3) =>
            match callCmd o ("git merge " ++ branch_name ++ " --no-edit") b3 with
            | (.ok _, b4) =>
                ({ result with branch := branch_name ++ " (merged to main)",
                               error := "", success := true }, b4)
            | (.error _, b4) => ({ result with error := "", success := true }, b4)
        | (.error _, b3) => ({ result with error := "", success := true }, b3)
  else if ¬ allS then
    let b1 := (callCmd o ("git commit -m \"WIP: " ++ plan.take 50
        ++ " (partial, needs review)\"") b).2
    ({ result with error := "Some subtasks failed. Changes on branch "
        ++ branch_name ++ " for review." }, b1)
  else (result, b)

/-- The best-effort switch back to main (lines 363-379); result unchanged. -/
def cleanup_checkout (o : RunnerOracle) (b : BridgeRun) : BridgeRun :=
  match callCmd o "git rev-parse --abbrev-ref HEAD" b with
  | (.ok cur, b1) =>
      if String.mk (pyStrip cur.stdout.data) ≠ "main" then
        (callCmd o "git checkout main" b1).2
      else b1
  | (.error _, b1) => b1

/-- `ExecutionBridge.execute_plan` (src/orchestrator/execution_bridge.py:
100-382).  `tsec` models `time.time()` for the branch-name suffix; progress
callbacks are fire-and-forget and stateless, so they are omitted. -/
def execute_plan (o : RunnerOracle) (auto_pr : Bool) (project_id plan : String)
    (subtasks : List SubtaskIn) (requested_by : String) (auto_approve : Bool)
    (tsec : ℕ) : ExecutionResult × BridgeRun :=
  let result : ExecutionResult := { project_id := project_id }
  -- preflight: is_runner_online() issues a health call
  let b := callHealth ({} : BridgeRun)
  if o.healthOk = false then
    ({ result with error := "Runner is offline — cannot execute code changes." }, b)
  else if MAX_SUBTASKS_PER_EXECUTION < subtasks.length then
    ({ result with error := "Too many subtasks (" ++ Nat.repr subtasks.length
        ++ "). Maximum is " ++ Nat.repr MAX_SUBTASKS_PER_EXECUTION ++ "." }, b)
  else
    let se := is_self_edit project_id
    if se ∧ check_self_edit_safety subtasks ≠ [] then
      ({ result with error := "Self-edit safety violation: "
          ++ joinComma (check_self_edit_safety subtasks)
          ++ ". These files cannot be modified autonomously." }, b)
    else
      -- working-tree clean check
      match callStatus o b with
      | (.error (.offline _), b1) =>
          ({ result with error := "Runner went offline during git status check." }, b1)
      | (.error (.rejected m), b1) =>
          ({ result with error := "Git status check failed: " ++ m }, b1)
      | (.ok st0, b1) =>
          if 0 < st0.dirtyCount then
            ({ result with
                error := "Working tree not clean (" ++ Nat.repr st0.dirtyCount
                  ++ " dirty files). Commit or stash changes first."
                git_status := some { branch := st0.branch, dirty := st0.dirtyCount,
                                     files := st0.changedFiles.take 10 } }, b1)
          else
            -- feature branch
            let branch_name := generate_branch_name plan requested_by tsec
            let result := { result with branch := branch_name }
            match callCmd o ("git checkout -b " ++ branch_name) b1 with
            | (.error e, b2) =>
                ({ result with error := "Branch creation failed: " ++ e.toMessage }, b2)
            | (.ok co, b2) =>
                if co.exitCode ≠ 0 then
                  ({ result with error := "Failed to create branch: " ++ co.stderr }, b2)
                else
                  -- subtasks via Claude CLI
                  let (b3, outcomes, allS1) := subtask_loop o subtasks b2 [] true
                  -- self-edit test suite
                  let (b4, outcomes, allS) :=
                    if se && allS1 then
                      let (t, b4) := run_tests o b3
                      let testOutcome : SubtaskOutcome :=
                        { id := "auto-test", agent := "tester",
                          success := t.exitCode = 0,
                          output := t.stdout.takeRight 2000,
                          error := if t.exitCode ≠ 0 then t.stderr.take 500 else "" }
                      (b4, outcomes ++ [testOutcome], allS1 && (t.exitCode = 0))
                    else (b3, outcomes, allS1)
                  let result := { result with subtask_results := outcomes }
                  -- stage changes (failure swallowed)
                  let b5 := (callCmd o "git add -A" b4).2
                  -- final git status (failure swallowed)
                  let (result, b6) :=
                    match callStatus o b5 with
                    | (.ok stF, b6) =>
                        let snap : GitSnapshot :=
                          { branch := stF.branch, dirty := stF.dirtyCount,
                            files := stF.changedFiles.take 20 }
                        ({ result with git_status := some snap }, b6)
                    | (.error _, b6) => (result, b6)
                  -- PR or commit + merge
                  let (result, b7) :=
                    finalize_pr o auto_pr auto_approve plan branch_name allS result b6
                  -- line 360: success recomputed from all_success and error
                  let result := { result with
                    success := allS && decide (result.error = "") }
                  -- best-effort switch back to main
                  let b8 := cleanup_checkout o b7
                  (result, b8)

/-! ## Claim-specific concrete inputs, invariants and derived predicates -/

def c1_spec : SubtaskSpec :=
  { id := "1", agent := "designer", description := "Design the landing page" }

/-- The post-planning state of a run whose only subtask names an agent type
with no registered agent (the pool has manager/frontend/backend/tester). -/
def c1_state : OState :=
  planning_node [c1_spec]
    { phase := "planning", subtasks := [], results := [], ready_queue := [],
      max_revisions := 2 }

def c1_entry (r : SubtaskResult) : Prop :=
  r.agent_type = "designer" ∧ r.attempts = 0 ∧ isEmptyOrError r.output = true

def c1_stuckExec (s : OState) : Prop :=
  s.phase = "executing" ∧ s.subtasks = [c1_spec] ∧ s.max_revisions = 2
  ∧ s.ready_queue = ["1"] ∧ ∃ r, s.results = [("1", r)] ∧ c1_entry r

def c1_stuckRev (s : OState) : Prop :=
  s.phase = "reviewing" ∧ s.subtasks = [c1_spec] ∧ s.max_revisions = 2
  ∧ s.ready_queue = [] ∧ ∃ r, s.results = [("1", r)] ∧ c1_entry r

def c2_spec : SubtaskSpec :=
  { id := "1", agent := "backend", description := "Implement the API" }

/-- The post-planning state of an ordinary one-subtask run (registered
agent type, default max_revisions = 2). -/
def c2_state : OState :=
  planning_node [c2_spec]
    { phase := "planning", subtasks := [], results := [], ready_queue := [],
      max_revisions := 2 }

def c2_entry (r : SubtaskResult) : Prop :=
  r.output = "" ∧ r.attempts = 0

def c2_stuckExec (s : OState) : Prop :=
  s.phase = "executing" ∧ s.subtasks = [c2_spec] ∧ s.max_revisions = 2
  ∧ s.ready_queue = ["1"] ∧ ∃ r, s.results = [("1", r)] ∧ c2_entry r

def c2_stuckRev (s : OState) : Prop :=
  s.phase = "reviewing" ∧ s.subtasks = [c2_spec] ∧ s.max_revisions = 2
  ∧ s.ready_queue = [] ∧ ∃ r, s.results = [("1", r)] ∧ c2_entry r

/-- The verdict the reviewing loop assigns in its review branch. -/
def reviewedVerdict (m : ℕ) (env : StepEnv) (r : SubtaskResult) : String :=
  if (env.verdict r.description r.output = "revise"
      ∨ env.verdict r.description r.output = "redo") ∧ m ≤ r.attempts then "approve"
  else env.verdict r.description r.output

/-- Invariant for claim C5: result keys are unique (they come from a Python
dict); an approved subtask has good output or is at the attempts cap (the
two ways the code assigns `approve`); and no approved subtask is queued. -/
def InvC5 (s : OState) : Prop :=
  (s.results.map Prod.fst).Nodup
  ∧ (∀ kv ∈ s.results, kv.2.review_verdict = "approve" →
      isEmptyOrError kv.2.output = false ∨ s.max_revisions ≤ kv.2.attempts)
  ∧ (∀ kv ∈ s.results, kv.2.review_verdict = "approve" → kv.1 ∉ s.ready_queue)

/-- The reviewer interface contract (spec §6 and the `Literal` type of
`SubtaskResult.review_verdict`): verdicts are approve, revise or redo. -/
def ReviewerDomain (env : StepEnv) : Prop :=
  ∀ d o, env.verdict d o = "approve" ∨ env.verdict d o = "revise"
    ∨ env.verdict d o = "redo"

/-- Invariant for claim C6: keys and the ready queue are duplicate-free,
every attempts counter is within the cap, and queued subtasks are strictly
below it (so one more execution cannot exceed it). -/
def InvC6 (s : OState) : Prop :=
  (s.results.map Prod.fst).Nodup
  ∧ s.ready_queue.Nodup
  ∧ (∀ kv ∈ s.results, kv.2.attempts ≤ s.max_revisions + 1)
  ∧ (∀ kv ∈ s.results, kv.1 ∈ s.ready_queue → kv.2.attempts ≤ s.max_revisions)

/-- Witness state for claim C5: a reviewed run whose single subtask is
already approved with good output. -/
def c5_state : OState :=
  { phase := "executing"
    subtasks := [c2_spec]
    results := [("1",
      { subtask_id := "1", agent_type := "backend",
        description := "Implement the API", output := "done",
        review_verdict := "approve", review_score := 8, attempts := 1 })]
    ready_queue := []
    max_revisions := 2 }

def c5_env : StepEnv :=
  { exec := fun _ => .ok "built", verdict := fun _ _ => "approve" }

def c3_oracle : RunnerOracle := { healthOk := true }

def c3_subtasks : List SubtaskIn :=
  [{ id := "1", description := "Update src/runner/safety.py to relax checks" }]

def c7_oracle : RunnerOracle :=
  { healthOk := true
    gitStatusResp := fun n =>
      if n = 0 then .ok { branch := "main", dirtyCount := 0, changedFiles := [] }
      else .ok { branch := "feature", dirtyCount := 3, changedFiles := ["a.py"] }
    cmdResp := fun _ => .ok { exitCode := 0, stdout := "", stderr := "", durationMs := 0 }
    claudeResp := fun _ => .ok { exitCode := 0, stdout := "done", stderr := "", durationMs := 0 }
    prResp := .error (.rejected "PR creation failed: gh not found") }

def c7_subtasks : List SubtaskIn := [{ id := "1", description := "Implement the API" }]

/-! ## Theorems -/

/-- Claim C8: `validate_command` raises `SafetyError` exactly for commands
matching the four documented pattern classes (push to a protected branch,
merge into a protected branch, destructive filesystem commands, deployment
commands) and returns normally for ordinary commands such as `git status`
and `npm test`. -/
theorem claim_C8_validate_command_exact :
    (∀ c : String, (validate_command c).isSome =
      (matches_protected_branch_push c || matches_protected_merge c
        || matches_destructive_fs c || matches_deploy c))
    ∧ validate_command "git status" = none
    ∧ validate_command "npm test" = none := by
  refine ⟨fun c => ?_, by decide, by decide⟩
  simp only [validate_command]
  by_cases h1 : matches_protected_branch_push c <;>
    by_cases h2 : matches_protected_merge c <;>
      by_cases h3 : matches_destructive_fs c <;>
        by_cases h4 : matches_deploy c <;>
          simp [h1, h2, h3, h4]

/-- Claim C9: every branch name generated by `_generate_branch_name` starts
with `athena/`, hence differs from `main` and `master`, and
`validate_branch_for_push` accepts it (its `SafetyError` branch is
unreachable for bridge-generated names). -/
theorem claim_C9_generated_branch_safe (plan source : String) (tsec : ℕ) :
    ("athena/".data <+: (generate_branch_name plan source tsec).data)
    ∧ generate_branch_name plan source tsec ≠ "main"
    ∧ generate_branch_name plan source tsec ≠ "master"
    ∧ validate_branch_for_push (generate_branch_name plan source tsec) = none := by
  have hdata : (generate_branch_name plan source tsec).data =
      "athena/".data ++ ((List.intercalate [ '-' ]
        ((pyWords ((pyLower plan.data).filter
          (fun c => c.isAlphanum || pyIsSpace c))).take 5)).take 40
        ++ "-".data ++ (Nat.repr (tsec % 100000)).data) := by
    simp [generate_branch_name]
  refine ⟨⟨_, hdata.symm⟩, ?_, ?_, ?_⟩
  · intro h
    have h2 := congrArg String.data h
    rw [hdata] at h2
    simp at h2
  · intro h
    have h2 := congrArg String.data h
    rw [hdata] at h2
    simp at h2
  · have hcons : ∃ t, (generate_branch_name plan source tsec).data = 'a' :: t := by
      exact ⟨_, hdata⟩
    obtain ⟨t, ht⟩ := hcons
    simp only [validate_branch_for_push, ht]
    have hsp : pyIsSpace 'a' = false := by decide
    have hne : pyLower (pyStrip ('a' :: t)) = 'a' :: pyLower (rstripP pyIsSpace t) := by
      simp [pyStrip, pyLower, List.dropWhile, rstripP, hsp]
    rw [hne]
    simp

/-- Claim C10: when a subtask's agent type has no registered agent,
`_execute_single` returns normally with the output set to an error message
and the verdict set to `redo`, leaving the attempts counter (and every other
field) unchanged. -/
theorem claim_C10_missing_agent (agents : List String) (env : StepEnv)
    (sid : String) (r : SubtaskResult) (h : r.agent_type ∉ agents) :
    execute_single agents env sid r =
      { r with
        output := "Error: no agent of type \'" ++ r.agent_type ++ "\'"
        review_verdict := "redo" } := by
  simp [execute_single, h]

/-- Witness for claim C10 at a concrete input. -/
theorem claim_C10_missing_agent_witness :
    ("designer" ∉ default_agents)
    ∧ execute_single default_agents {} "1"
        { subtask_id := "1", agent_type := "designer", description := "d" } =
      { subtask_id := "1", agent_type := "designer", description := "d",
        output := "Error: no agent of type \'designer\'",
        review_verdict := "redo" } :=
  ⟨by decide,
   claim_C10_missing_agent default_agents {} "1"
     { subtask_id := "1", agent_type := "designer", description := "d" } (by decide)⟩

/-! ### Poller backoff (claim C4) -/

lemma checkOnce_interval_bounds (base maxI : ℚ) (hpos : 0 < base)
    (hle : base ≤ maxI) (st : RunnerState) (b : Bool) :
    base ≤ (checkOnce base maxI st b).current_interval
    ∧ (checkOnce base maxI st b).current_interval ≤ maxI := by
  cases b with
  | true => simp [checkOnce, le_refl, hle]
  | false =>
    have h2 : (1 : ℚ) ≤ 2 ^ st.consecutive_failures :=
      one_le_pow₀ (by norm_num)
    have hbb : base ≤ base * 2 ^ st.consecutive_failures :=
      le_mul_of_one_le_right hpos.le h2
    simp only [checkOnce, if_neg (by simp : ¬ (false = true))]
    exact ⟨le_min hbb hle, min_le_right _ _⟩

lemma runChecks_interval_bounds (base maxI : ℚ) (hpos : 0 < base)
    (hle : base ≤ maxI) :
    ∀ (outcomes : List Bool) (st : RunnerState),
      base ≤ st.current_interval → st.current_interval ≤ maxI →
      base ≤ (runChecks base maxI st outcomes).current_interval
      ∧ (runChecks base maxI st outcomes).current_interval ≤ maxI := by
  intro outcomes
  induction outcomes with
  | nil => intro st h1 h2; exact ⟨h1, h2⟩
  | cons b rest ih =>
    intro st _ _
    have hb := checkOnce_interval_bounds base maxI hpos hle st b
    exact ih (checkOnce base maxI st b) hb.1 hb.2

lemma runChecks_failures (base maxI : ℚ) :
    ∀ (m : ℕ) (st : RunnerState),
      (runChecks base maxI st (List.replicate m false)).consecutive_failures
        = st.consecutive_failures + m
      ∧ (1 ≤ m →
          (runChecks base maxI st (List.replicate m false)).current_interval
            = min (base * 2 ^ (st.consecutive_failures + m - 1)) maxI) := by
  intro m
  induction m with
  | zero => intro st; simp [runChecks]
  | succ k ih =>
    intro st
    have hrw : runChecks base maxI st (List.replicate (k + 1) false)
        = runChecks base maxI (checkOnce base maxI st false) (List.replicate k false) := rfl
    have hcf : (checkOnce base maxI st false).consecutive_failures
        = st.consecutive_failures + 1 := by simp [checkOnce]
    rcases Nat.eq_zero_or_pos k with hk | hk
    · subst hk
      refine ⟨?_, fun _ => ?_⟩
      · rw [hrw]
        simp [runChecks, hcf]
      · rw [hrw]
        show (checkOnce base maxI st false).current_interval = _
        simp [checkOnce]
    · obtain ⟨ih1, ih2⟩ := ih (checkOnce base maxI st false)
      refine ⟨?_, fun _ => ?_⟩
      · rw [hrw, ih1, hcf]
        omega
      · rw [hrw, ih2 hk, hcf]
        have he : st.consecutive_failures + 1 + k - 1
            = st.consecutive_failures + (k + 1) - 1 := by omega
        rw [he]

/-- Claim C4 (amended): provided the configured base interval is positive,
at most the max interval, and the state's interval starts within bounds
(true for the default configuration, where base = the hard-coded initial
10): `current_interval` stays within `[base, max]` across every run of
health checks; after `n ≥ 1` consecutive failures from a zero-failure state
it equals `min(base · 2^(n−1), max)`; any success immediately resets it to
`base` and the failure counter to 0; and with the default 10s base the
sequence over three failures is 10, 20, 40, reset to 10 by a success.
(The unamended claim fails only at the pre-first-check initial state of a
poller configured with a base other than 10, see the counterexample.) -/
theorem claim_C4_backoff :
    (∀ base maxI : ℚ, 0 < base → base ≤ maxI →
      (∀ (outcomes : List Bool) (st : RunnerState),
        base ≤ st.current_interval → st.current_interval ≤ maxI →
        base ≤ (runChecks base maxI st outcomes).current_interval
        ∧ (runChecks base maxI st outcomes).current_interval ≤ maxI)
      ∧ (∀ (st : RunnerState) (n : ℕ), st.consecutive_failures = 0 → 1 ≤ n →
          (runChecks base maxI st (List.replicate n false)).current_interval
            = min (base * 2 ^ (n - 1)) maxI
          ∧ (runChecks base maxI st (List.replicate n false)).consecutive_failures = n)
      ∧ (∀ st : RunnerState,
          (checkOnce base maxI st true).current_interval = base
          ∧ (checkOnce base maxI st true).consecutive_failures = 0))
    ∧ ((runChecks BASE_INTERVAL MAX_INTERVAL RunnerState.init
          (List.replicate 1 false)).current_interval = 10
        ∧ (runChecks BASE_INTERVAL MAX_INTERVAL RunnerState.init
          (List.replicate 2 false)).current_interval = 20
        ∧ (runChecks BASE_INTERVAL MAX_INTERVAL RunnerState.init
          (List.replicate 3 false)).current_interval = 40
        ∧ (checkOnce BASE_INTERVAL MAX_INTERVAL
            (runChecks BASE_INTERVAL MAX_INTERVAL RunnerState.init
              (List.replicate 3 false)) true).current_interval = 10
        ∧ (checkOnce BASE_INTERVAL MAX_INTERVAL
            (runChecks BASE_INTERVAL MAX_INTERVAL RunnerState.init
              (List.replicate 3 false)) true).consecutive_failures = 0) := by
  constructor
  · intro base maxI hpos hle
    refine ⟨runChecks_interval_bounds base maxI hpos hle, ?_, ?_⟩
    · intro st n h0 h1
      have h := runChecks_failures base maxI n st
      rw [h0] at h
      simp only [Nat.zero_add] at h
      exact ⟨h.2 h1, h.1⟩
    · intro st; simp [checkOnce]
  · refine ⟨?_, ?_, ?_, ?_, ?_⟩ <;>
      norm_num [runChecks, checkOnce, RunnerState.init, BASE_INTERVAL, MAX_INTERVAL,
        List.replicate]

/-- Witness for claim C4 at the default configuration. -/
theorem claim_C4_backoff_witness :
    (0 : ℚ) < 10 ∧ (10 : ℚ) ≤ 300
    ∧ (checkOnce 10 300 RunnerState.init true).current_interval = 10 :=
  ⟨by norm_num, by norm_num,
   ((claim_C4_backoff.1 10 300 (by norm_num) (by norm_num)).2.2 RunnerState.init).1⟩

/-- Claim C4 counterexample: `RunnerPoller` can be constructed with a
configured base interval of 20 (`settings.runner_poll_interval` is
configurable), but `RunnerPoller.__init__` sets `self.state = RunnerState()`,
whose `current_interval` is the hard-coded module default 10.  Before the
first health check the interval therefore lies strictly below the base
interval, refuting "current_interval always lies within
[base_interval, max_interval]". -/
theorem claim_C4_counterexample :
    ¬ (20 ≤ (RunnerPoller.initState 20 300).current_interval
        ∧ (RunnerPoller.initState 20 300).current_interval ≤ 300) := by
  norm_num [RunnerPoller.initState, RunnerState.init, BASE_INTERVAL]

/-! ### Orchestrator non-termination (claims C1 and C2)

The graph has no stall detection and no `Stalled` error anywhere: when a
subtask can never progress, `route_after_review` keeps routing back to
`execute`.  Two concrete failing runs are developed: a subtask whose agent
type has no registered agent (its attempts counter is never incremented, so
the review cap is never reached), and a run whose cooperative stop signal is
set (the skipped batch leaves the subtask unfinished and below the cap). -/

lemma execute_parallel_sync_stop (agents : List String) (env : StepEnv)
    (ready : List String) (results : List (String × SubtaskResult))
    (h : env.stop = true) :
    execute_parallel_sync agents env ready results = results := by
  by_cases hr : ready = [] <;> simp [execute_parallel_sync, hr, h]

lemma execute_parallel_sync_budget (agents : List String) (env : StepEnv)
    (ready : List String) (results : List (String × SubtaskResult)) (b : Int)
    (hb : env.budget = some b) (h : b ≤ 0) :
    execute_parallel_sync agents env ready results = results := by
  by_cases hr : ready = []
  · simp [execute_parallel_sync, hr]
  · by_cases hs : env.stop <;> simp [execute_parallel_sync, hr, hs, hb, h]

lemma c1_exec_result (env : StepEnv) (r : SubtaskResult)
    (hag : r.agent_type = "designer") (hat : r.attempts = 0) :
    c1_entry (execute_single default_agents env "1" r) := by
  have hns : r.agent_type ∉ default_agents := by rw [hag]; decide
  rw [execute_single, if_pos hns]
  refine ⟨hag, hat, ?_⟩
  show isEmptyOrError ("Error: no agent of type \'" ++ r.agent_type ++ "\'") = true
  rw [hag]
  decide

lemma c1_exec_fold (env : StepEnv) (r : SubtaskResult)
    (hstop : env.stop = false)
    (hbud : (match env.budget with | some b => decide (b ≤ 0) | none => false) = false) :
    execute_parallel_sync default_agents env ["1"] [("1", r)]
      = [("1", execute_single default_agents env "1" r)] := by
  rw [execute_parallel_sync, if_neg (by simp), if_neg (by simp [hstop]),
    if_neg (by simp [hbud])]
  simp [execFold, lookupR, updateR]

lemma c1_exec_step (env : StepEnv) (s : OState) (h : c1_stuckExec s) :
    c1_stuckRev (graphStep default_agents env s) := by
  obtain ⟨hp, hsub, hmax, hq, r, hres, hag, hat, hout⟩ := h
  have hg : graphStep default_agents env s = executing_node default_agents env s := by
    simp [graphStep, hp]
  rw [hg, executing_node, if_neg (by simp [hq])]
  by_cases hstop : env.stop = true
  · rw [execute_parallel_sync_stop _ _ _ _ hstop]
    exact ⟨rfl, hsub, hmax, rfl, r, hres, hag, hat, hout⟩
  · have hstop' : env.stop = false := by simpa using hstop
    by_cases hbud : (match env.budget with
        | some b => decide (b ≤ 0) | none => false) = true
    · have : execute_parallel_sync default_agents env s.ready_queue s.results
          = s.results := by
        rw [execute_parallel_sync]
        by_cases hr : s.ready_queue = [] <;> simp [hr, hstop', hbud]
      rw [this]
      exact ⟨rfl, hsub, hmax, rfl, r, hres, hag, hat, hout⟩
    · have hbud' : (match env.budget with
          | some b => decide (b ≤ 0) | none => false) = false := by
        simpa using hbud
      rw [hq, hres, c1_exec_fold env r hstop' hbud']
      exact ⟨rfl, hsub, hmax, rfl, _, rfl, c1_exec_result env r hag hat⟩

lemma c1_review_step (env : StepEnv) (s : OState) (h : c1_stuckRev s) :
    c1_stuckExec (graphStep default_agents env s) := by
  obtain ⟨hp, hsub, hmax, hq, r, hres, hag, hat, hout⟩ := h
  have hg : graphStep default_agents env s = reviewing_node env s := by
    simp [graphStep, hp]
  rw [hg]
  have hrs : review_single 2 env r = ({ r with review_verdict := "redo" }, true) := by
    rw [review_single, if_neg (by simp [hout]), if_pos (by simp [hout]),
      if_pos (by omega)]
  have hnode : reviewing_node env s =
      { s with
        phase := "executing"
        results := [("1", { r with review_verdict := "redo" })]
        ready_queue := ["1"] } := by
    simp [reviewing_node, hres, hmax, hrs, depReady, hsub, c1_spec]
  rw [hnode]
  exact ⟨rfl, hsub, hmax, rfl, _, rfl, hag, hat, hout⟩

lemma c1_never_done (envs : List StepEnv) :
    ∀ s : OState, c1_stuckExec s ∨ c1_stuckRev s →
      (runSteps default_agents s envs).phase ≠ "done"
      ∧ (runSteps default_agents s envs).phase ≠ "synthesizing" := by
  induction envs with
  | nil =>
    intro s h
    rcases h with h | h
    · rw [runSteps, h.1]; exact ⟨by decide, by decide⟩
    · rw [runSteps, h.1]; exact ⟨by decide, by decide⟩
  | cons env rest ih =>
    intro s h
    rcases h with h | h
    · exact ih _ (Or.inr (c1_exec_step env s h))
    · exact ih _ (Or.inl (c1_review_step env s h))

/-- Claim C1 (code bug): the code has no `Stalled` error and no iteration
bound.  For the concrete plan with one subtask whose agent type has no
registered agent, `_execute_single` reports the error WITHOUT incrementing
`attempts`, review auto-routes the errored output to `redo` (0 attempts <
max_revisions = 2) and re-queues it, so the run never reaches `done` (nor
even `synthesizing`) within subtaskCount × (maxRevisions + 1) = 3 review
iterations — or any number of iterations — and no `Stalled` error is ever
raised (the state machine has no such outcome). -/
theorem claim_C1_no_stall_detection (envs : List StepEnv) :
    (runSteps default_agents c1_state envs).phase ≠ "done"
    ∧ (runSteps default_agents c1_state envs).phase ≠ "synthesizing" := by
  refine c1_never_done envs c1_state (Or.inl ?_)
  refine ⟨rfl, rfl, rfl, rfl, _, rfl, rfl, rfl, by decide⟩

lemma c2_exec_step (env : StepEnv) (s : OState) (hstop : env.stop = true)
    (h : c2_stuckExec s) : c2_stuckRev (graphStep default_agents env s) := by
  obtain ⟨hp, hsub, hmax, hq, r, hres, hout, hat⟩ := h
  have hg : graphStep default_agents env s = executing_node default_agents env s := by
    simp [graphStep, hp]
  rw [hg, executing_node, if_neg (by simp [hq])]
  rw [execute_parallel_sync_stop _ _ _ _ hstop]
  exact ⟨rfl, hsub, hmax, rfl, r, hres, hout, hat⟩

lemma c2_review_step (env : StepEnv) (s : OState) (h : c2_stuckRev s) :
    c2_stuckExec (graphStep default_agents env s) := by
  obtain ⟨hp, hsub, hmax, hq, r, hres, hout, hat⟩ := h
  have hg : graphStep default_agents env s = reviewing_node env s := by
    simp [graphStep, hp]
  rw [hg]
  have hee : isEmptyOrError r.output = true := by simp [isEmptyOrError, hout]
  have hrs : review_single 2 env r = ({ r with review_verdict := "redo" }, true) := by
    rw [review_single, if_neg (by simp [hee]), if_pos (by simp [hee]),
      if_pos (by omega)]
  have hnode : reviewing_node env s =
      { s with
        phase := "executing"
        results := [("1", { r with review_verdict := "redo" })]
        ready_queue := ["1"] } := by
    simp [reviewing_node, hres, hmax, hrs, depReady, hsub, c2_spec]
  rw [hnode]
  exact ⟨rfl, hsub, hmax, rfl, _, rfl, hout, hat⟩

lemma c2_never_synth (envs : List StepEnv) (hstop : ∀ e ∈ envs, e.stop = true) :
    ∀ s : OState, c2_stuckExec s ∨ c2_stuckRev s →
      (runSteps default_agents s envs).phase ≠ "synthesizing"
      ∧ (runSteps default_agents s envs).phase ≠ "done" := by
  induction envs with
  | nil =>
    intro s h
    rcases h with h | h
    · rw [runSteps, h.1]; exact ⟨by decide, by decide⟩
    · rw [runSteps, h.1]; exact ⟨by decide, by decide⟩
  | cons env rest ih =>
    intro s h
    have he : env.stop = true := hstop env (by simp)
    have hr : ∀ e ∈ rest, e.stop = true := fun e hm => hstop e (by simp [hm])
    rcases h with h | h
    · exact ih hr _ (Or.inr (c2_exec_step env s he h))
    · exact ih hr _ (Or.inl (c2_review_step env s h))

/-- Claim C2 (code bug): when the stop signal is set (or the budget is
exhausted) at a batch boundary the batch IS skipped entirely — the results
are returned untouched — but the run does NOT proceed directly to synthesis:
review re-queues every unfinished subtask whose attempts are below
max_revisions (attempts never grow while batches are skipped), so the run
cycles between `executing` and `reviewing` forever, never reaching
`synthesizing` or `done`. -/
theorem claim_C2_stop_budget_skip :
    (∀ (agents : List String) (env : StepEnv) (ready : List String)
        (results : List (String × SubtaskResult)), env.stop = true →
        execute_parallel_sync agents env ready results = results)
    ∧ (∀ (agents : List String) (env : StepEnv) (ready : List String)
        (results : List (String × SubtaskResult)) (b : Int),
        env.budget = some b → b ≤ 0 →
        execute_parallel_sync agents env ready results = results)
    ∧ (∀ envs : List StepEnv, (∀ e ∈ envs, e.stop = true) →
        (runSteps default_agents c2_state envs).phase ≠ "synthesizing"
        ∧ (runSteps default_agents c2_state envs).phase ≠ "done") := by
  refine ⟨execute_parallel_sync_stop, execute_parallel_sync_budget, ?_⟩
  intro envs hstop
  refine c2_never_synth envs hstop c2_state (Or.inl ?_)
  exact ⟨rfl, rfl, rfl, rfl, _, rfl, rfl, rfl⟩

/-- Witness for claim C2 at a concrete input: a two-step run under a set
stop signal skips the batch and is still not synthesizing. -/
theorem claim_C2_stop_budget_skip_witness :
    execute_parallel_sync default_agents { stop := true } ["1"] [] = []
    ∧ (runSteps default_agents c2_state
        [{ stop := true }, { stop := true }]).phase ≠ "synthesizing" :=
  ⟨claim_C2_stop_budget_skip.1 default_agents { stop := true } ["1"] [] rfl,
   (claim_C2_stop_budget_skip.2.2 [{ stop := true }, { stop := true }]
     (by
       intro e he
       rcases List.mem_cons.mp he with h | h
       · rw [h]
       · rw [List.mem_singleton.mp h])).1⟩

/-! ### Association-list and per-subtask review lemmas (claims C5 and C6) -/

lemma updateR_map_fst (l : List (String × SubtaskResult)) (sid : String)
    (r : SubtaskResult) : (updateR l sid r).map Prod.fst = l.map Prod.fst := by
  induction l with
  | nil => rfl
  | cons kv t ih =>
    by_cases h : kv.1 = sid
    · cases kv; simp_all [updateR]
    · cases kv; simp_all [updateR]

lemma mem_updateR {l : List (String × SubtaskResult)} {sid : String}
    {r : SubtaskResult} :
    ∀ kv ∈ updateR l sid r, kv ∈ l ∨ (kv.1 = sid ∧ kv.2 = r) := by
  induction l with
  | nil => simp [updateR]
  | cons hd t ih =>
    intro kv hkv
    by_cases h : hd.1 = sid
    · cases hd
      rw [updateR, if_pos h] at hkv
      rcases List.mem_cons.mp hkv with h2 | h2
      · right; rw [h2]; exact ⟨h, rfl⟩
      · left; exact List.mem_cons_of_mem _ h2
    · cases hd
      rw [updateR, if_neg h] at hkv
      rcases List.mem_cons.mp hkv with h2 | h2
      · left; rw [h2]; exact List.mem_cons_self _ _
      · rcases ih kv h2 with h3 | h3
        · left; exact List.mem_cons_of_mem _ h3
        · right; exact h3

lemma lookupR_mem {l : List (String × SubtaskResult)} {sid : String}
    {r : SubtaskResult} (h : lookupR l sid = some r) : (sid, r) ∈ l := by
  induction l with
  | nil => simp [lookupR] at h
  | cons hd t ih =>
    cases hd with
    | mk k v =>
      rw [lookupR] at h
      by_cases hk : k = sid
      · rw [if_pos hk] at h
        subst hk
        cases h
        exact List.mem_cons_self _ _
      · rw [if_neg hk] at h
        exact List.mem_cons_of_mem _ (ih h)

lemma lookupR_updateR_ne (l : List (String × SubtaskResult)) (k sid : String)
    (r : SubtaskResult) (h : k ≠ sid) :
    lookupR (updateR l k r) sid = lookupR l sid := by
  induction l with
  | nil => rfl
  | cons hd t ih =>
    cases hd with
    | mk k0 v =>
      rw [updateR]
      by_cases hk : k0 = k
      · have h0 : ¬ k0 = sid := by rw [hk]; exact h
        rw [if_pos hk, lookupR, lookupR, if_neg h0, if_neg h0]
      · rw [if_neg hk, lookupR, lookupR]
        by_cases h0 : k0 = sid
        · rw [if_pos h0, if_pos h0]
        · rw [if_neg h0, if_neg h0, ih]

lemma lookupR_valmap (f : SubtaskResult → SubtaskResult)
    (l : List (String × SubtaskResult)) (sid : String) :
    lookupR (l.map (fun kv => (kv.1, f kv.2))) sid = (lookupR l sid).map f := by
  induction l with
  | nil => rfl
  | cons hd t ih =>
    cases hd with
    | mk k v =>
      by_cases h : k = sid
      · simp [lookupR, h]
      · simp [lookupR, h, ih]

lemma keys_nodup_unique {l : List (String × SubtaskResult)}
    (hnd : (l.map Prod.fst).Nodup) {k : String} {a b : SubtaskResult}
    (ha : (k, a) ∈ l) (hb : (k, b) ∈ l) : a = b := by
  induction l with
  | nil => simp at ha
  | cons hd t ih =>
    rw [List.map_cons, List.nodup_cons] at hnd
    rcases List.mem_cons.mp ha with h1 | h1 <;> rcases List.mem_cons.mp hb with h2 | h2
    · have h3 : (k, a) = (k, b) := h1.trans h2.symm
      exact congrArg Prod.snd h3
    · exfalso
      apply hnd.1
      rw [← h1]
      exact List.mem_map.mpr ⟨(k, b), h2, rfl⟩
    · exfalso
      apply hnd.1
      rw [← h2]
      exact List.mem_map.mpr ⟨(k, a), h1, rfl⟩
    · exact ih hnd.2 h1 h2

lemma execute_single_not_approve (agents : List String) (env : StepEnv)
    (sid : String) (r : SubtaskResult) (h : r.review_verdict ≠ "approve") :
    (execute_single agents env sid r).review_verdict ≠ "approve" := by
  rw [execute_single]
  split
  · simp
  · split <;> simp [h]

lemma execute_single_attempts (agents : List String) (env : StepEnv)
    (sid : String) (r : SubtaskResult) :
    (execute_single agents env sid r).attempts ≤ r.attempts + 1 := by
  rw [execute_single]
  split
  · simp
  · split <;> simp

lemma review_single_skip (m : ℕ) (env : StepEnv) (r : SubtaskResult)
    (h : r.review_verdict ≠ "pending" ∧ isEmptyOrError r.output = false
      ∧ r.review_verdict = "approve") :
    review_single m env r = (r, false) := by
  rw [review_single, if_pos h]

lemma review_single_err_redo (m : ℕ) (env : StepEnv) (r : SubtaskResult)
    (h1 : ¬ (r.review_verdict ≠ "pending" ∧ isEmptyOrError r.output = false
      ∧ r.review_verdict = "approve"))
    (h2 : isEmptyOrError r.output = true) (h3 : r.attempts < m) :
    review_single m env r = ({ r with review_verdict := "redo" }, true) := by
  rw [review_single, if_neg h1, if_pos h2, if_pos h3]

lemma review_single_err_app (m : ℕ) (env : StepEnv) (r : SubtaskResult)
    (h1 : ¬ (r.review_verdict ≠ "pending" ∧ isEmptyOrError r.output = false
      ∧ r.review_verdict = "approve"))
    (h2 : isEmptyOrError r.output = true) (h3 : ¬ r.attempts < m) :
    review_single m env r = ({ r with review_verdict := "approve" }, false) := by
  rw [review_single, if_neg h1, if_pos h2, if_neg h3]

lemma review_single_rev (m : ℕ) (env : StepEnv) (r : SubtaskResult)
    (h1 : ¬ (r.review_verdict ≠ "pending" ∧ isEmptyOrError r.output = false
      ∧ r.review_verdict = "approve"))
    (h2 : isEmptyOrError r.output = false) :
    review_single m env r =
      ({ r with
          review_verdict := reviewedVerdict m env r
          review_feedback := env.feedback r.description r.output
          review_score := env.score r.description r.output },
        decide (reviewedVerdict m env r = "revise" ∨ reviewedVerdict m env r = "redo")) := by
  rw [review_single, if_neg h1, if_neg (by simp [h2])]
  rfl

/-- Exactly one of the four branch equations applies. -/
lemma review_single_branches (m : ℕ) (env : StepEnv) (r : SubtaskResult) :
    review_single m env r = (r, false)
      ∧ r.review_verdict = "approve" ∧ isEmptyOrError r.output = false
    ∨ review_single m env r = ({ r with review_verdict := "redo" }, true)
      ∧ r.attempts < m
    ∨ review_single m env r = ({ r with review_verdict := "approve" }, false)
      ∧ isEmptyOrError r.output = true ∧ m ≤ r.attempts
    ∨ review_single m env r =
        ({ r with
            review_verdict := reviewedVerdict m env r
            review_feedback := env.feedback r.description r.output
            review_score := env.score r.description r.output },
          decide (reviewedVerdict m env r = "revise" ∨ reviewedVerdict m env r = "redo"))
      ∧ isEmptyOrError r.output = false := by
  by_cases h1 : r.review_verdict ≠ "pending" ∧ isEmptyOrError r.output = false
      ∧ r.review_verdict = "approve"
  · exact Or.inl ⟨review_single_skip m env r h1, h1.2.2, h1.2.1⟩
  · by_cases h2 : isEmptyOrError r.output = true
    · by_cases h3 : r.attempts < m
      · exact Or.inr (Or.inl ⟨review_single_err_redo m env r h1 h2 h3, h3⟩)
      · exact Or.inr (Or.inr (Or.inl
          ⟨review_single_err_app m env r h1 h2 h3, h2, by omega⟩))
    · have h2' : isEmptyOrError r.output = false := by simpa using h2
      exact Or.inr (Or.inr (Or.inr ⟨review_single_rev m env r h1 h2', h2'⟩))

lemma review_single_attempts (m : ℕ) (env : StepEnv) (r : SubtaskResult) :
    (review_single m env r).1.attempts = r.attempts := by
  rcases review_single_branches m env r with ⟨h, _⟩ | ⟨h, _⟩ | ⟨h, _⟩ | ⟨h, _⟩ <;>
    rw [h]

lemma review_single_output (m : ℕ) (env : StepEnv) (r : SubtaskResult) :
    (review_single m env r).1.output = r.output := by
  rcases review_single_branches m env r with ⟨h, _⟩ | ⟨h, _⟩ | ⟨h, _⟩ | ⟨h, _⟩ <;>
    rw [h]

lemma review_single_flag_rr (m : ℕ) (env : StepEnv) (r : SubtaskResult)
    (h : (review_single m env r).2 = true) :
    (review_single m env r).1.review_verdict = "revise"
    ∨ (review_single m env r).1.review_verdict = "redo" := by
  rcases review_single_branches m env r with ⟨he, _⟩ | ⟨he, _⟩ | ⟨he, _⟩ | ⟨he, _⟩ <;>
    rw [he] at h ⊢
  · simp at h
  · right; rfl
  · simp at h
  · simpa using of_decide_eq_true h

lemma review_single_flag_attempts (m : ℕ) (env : StepEnv) (r : SubtaskResult)
    (h : (review_single m env r).2 = true) : r.attempts < m := by
  rcases review_single_branches m env r with ⟨he, _⟩ | ⟨he, h3⟩ | ⟨he, _⟩ | ⟨he, _⟩ <;>
    rw [he] at h
  · simp at h
  · exact h3
  · simp at h
  · have hrr := of_decide_eq_true h
    by_cases hle : m ≤ r.attempts
    · exfalso
      by_cases hv0 : env.verdict r.description r.output = "revise"
          ∨ env.verdict r.description r.output = "redo"
      · rw [reviewedVerdict, if_pos ⟨hv0, hle⟩] at hrr
        simp at hrr
      · rw [reviewedVerdict, if_neg (by tauto)] at hrr
        exact hv0 hrr
    · omega

lemma review_single_rr_flag (m : ℕ) (env : StepEnv) (r : SubtaskResult)
    (h : (review_single m env r).1.review_verdict = "revise"
      ∨ (review_single m env r).1.review_verdict = "redo") :
    (review_single m env r).2 = true := by
  rcases review_single_branches m env r with ⟨he, ha, _⟩ | ⟨he, _⟩ | ⟨he, _⟩ | ⟨he, _⟩
  · rw [he] at h
    rw [ha] at h
    simp at h
  · rw [he]
  · rw [he] at h
    simp at h
  · rw [he] at h ⊢
    exact decide_eq_true (by simpa using h)

lemma review_single_approve_good (m : ℕ) (env : StepEnv) (r : SubtaskResult)
    (h : (review_single m env r).1.review_verdict = "approve") :
    isEmptyOrError (review_single m env r).1.output = false
    ∨ m ≤ (review_single m env r).1.attempts := by
  rcases review_single_branches m env r with ⟨he, _, hg⟩ | ⟨he, _⟩ | ⟨he, _, hle⟩
    | ⟨he, hg⟩ <;> rw [he] at h ⊢
  · exact Or.inl hg
  · simp at h
  · exact Or.inr hle
  · exact Or.inl hg

lemma review_single_approve_stable (m : ℕ) (env : StepEnv) (r : SubtaskResult)
    (ha : r.review_verdict = "approve")
    (hgood : isEmptyOrError r.output = false ∨ m ≤ r.attempts) :
    (review_single m env r).1.review_verdict = "approve"
    ∧ (review_single m env r).2 = false := by
  by_cases hee : isEmptyOrError r.output = true
  · have hm : m ≤ r.attempts := by
      rcases hgood with h | h
      · rw [hee] at h; cases h
      · exact h
    rw [review_single_err_app m env r (by simp [hee]) hee (by omega)]
    exact ⟨rfl, rfl⟩
  · have hee' : isEmptyOrError r.output = false := by simpa using hee
    rw [review_single_skip m env r ⟨by rw [ha]; decide, hee', ha⟩]
    exact ⟨ha, rfl⟩

lemma review_single_verdict_domain (m : ℕ) (env : StepEnv) (r : SubtaskResult)
    (hRD : env.verdict r.description r.output = "approve"
      ∨ env.verdict r.description r.output = "revise"
      ∨ env.verdict r.description r.output = "redo") :
    (review_single m env r).1.review_verdict = "approve"
    ∨ (review_single m env r).1.review_verdict = "revise"
    ∨ (review_single m env r).1.review_verdict = "redo" := by
  rcases review_single_branches m env r with ⟨he, ha, _⟩ | ⟨he, _⟩ | ⟨he, _⟩ | ⟨he, _⟩ <;>
    rw [he]
  · exact Or.inl ha
  · exact Or.inr (Or.inr rfl)
  · exact Or.inl rfl
  · rw [reviewedVerdict]
    split
    · exact Or.inl rfl
    · exact hRD

lemma execFold_cons (agents : List String) (env : StepEnv)
    (results : List (String × SubtaskResult)) (sid : String) (rest : List String) :
    execFold agents env results (sid :: rest)
      = execFold agents env
          (match lookupR results sid with
           | some r => updateR results sid (execute_single agents env sid r)
           | none => results) rest := rfl

lemma execFold_map_fst (agents : List String) (env : StepEnv) :
    ∀ (ready : List String) (results : List (String × SubtaskResult)),
      (execFold agents env results ready).map Prod.fst = results.map Prod.fst := by
  intro ready
  induction ready with
  | nil => intro results; rfl
  | cons sid rest ih =>
    intro results
    rw [execFold_cons]
    rcases hl : lookupR results sid with _ | r
    · simp only [hl]
      exact ih results
    · simp only [hl]
      rw [ih, updateR_map_fst]

lemma execFold_lookup_not_mem (agents : List String) (env : StepEnv) :
    ∀ (ready : List String) (results : List (String × SubtaskResult)) (sid : String),
      sid ∉ ready →
      lookupR (execFold agents env results ready) sid = lookupR results sid := by
  intro ready
  induction ready with
  | nil => intro results sid _; rfl
  | cons k rest ih =>
    intro results sid hmem
    have hk : k ≠ sid := fun h => hmem (by rw [h]; exact List.mem_cons_self _ _)
    have hrest : sid ∉ rest := fun h => hmem (List.mem_cons_of_mem _ h)
    rw [execFold_cons]
    rcases hl : lookupR results k with _ | r
    · simp only [hl]
      exact ih results sid hrest
    · simp only [hl]
      rw [ih _ sid hrest, lookupR_updateR_ne _ _ _ _ hk]

lemma execFold_entry_origin (agents : List String) (env : StepEnv)
    (results0 : List (String × SubtaskResult)) (readyAll : List String)
    (h0 : ∀ kv ∈ results0, kv.1 ∈ readyAll → kv.2.review_verdict ≠ "approve") :
    ∀ (ready : List String) (results : List (String × SubtaskResult)),
      (∀ kv ∈ results, kv ∈ results0 ∨ kv.2.review_verdict ≠ "approve") →
      ready ⊆ readyAll →
      ∀ kv ∈ execFold agents env results ready,
        kv ∈ results0 ∨ kv.2.review_verdict ≠ "approve" := by
  intro ready
  induction ready with
  | nil => intro results hres _ kv hkv; exact hres kv hkv
  | cons sid rest ih =>
    intro results hres hsub kv hkv
    rw [execFold_cons] at hkv
    rcases hl : lookupR results sid with _ | r
    · rw [hl] at hkv
      exact ih results hres (fun x hx => hsub (List.mem_cons_of_mem _ hx)) kv hkv
    · rw [hl] at hkv
      have hrmem : (sid, r) ∈ results := lookupR_mem hl
      have hrna : r.review_verdict ≠ "approve" := by
        rcases hres _ hrmem with hm | hm
        · exact h0 _ hm (hsub (List.mem_cons_self _ _))
        · exact hm
      refine ih _ ?_ (fun x hx => hsub (List.mem_cons_of_mem _ hx)) kv hkv
      intro kv2 hkv2
      rcases mem_updateR kv2 hkv2 with hm | hm
      · exact hres kv2 hm
      · right
        rw [hm.2]
        exact execute_single_not_approve agents env sid r hrna

lemma execFold_attempts (agents : List String) (env : StepEnv) (m : ℕ) :
    ∀ (ready : List String) (results : List (String × SubtaskResult)),
      ready.Nodup →
      (∀ kv ∈ results, kv.2.attempts ≤ m + 1) →
      (∀ kv ∈ results, kv.1 ∈ ready → kv.2.attempts ≤ m) →
      ∀ kv ∈ execFold agents env results ready, kv.2.attempts ≤ m + 1 := by
  intro ready
  induction ready with
  | nil => intro results _ hle _ kv hkv; exact hle kv hkv
  | cons sid rest ih =>
    intro results hnd hle hready kv hkv
    have hnd2 := List.nodup_cons.mp hnd
    rw [execFold_cons] at hkv
    rcases hl : lookupR results sid with _ | r
    · rw [hl] at hkv
      exact ih results hnd2.2 hle
        (fun kv2 h2 hm => hready kv2 h2 (List.mem_cons_of_mem _ hm)) kv hkv
    · rw [hl] at hkv
      have hrmem : (sid, r) ∈ results := lookupR_mem hl
      have hratt : r.attempts ≤ m := hready _ hrmem (List.mem_cons_self _ _)
      refine ih _ hnd2.2 ?_ ?_ kv hkv
      · intro kv2 hkv2
        rcases mem_updateR kv2 hkv2 with hm | hm
        · exact hle kv2 hm
        · rw [hm.2]
          calc (execute_single agents env sid r).attempts
              ≤ r.attempts + 1 := execute_single_attempts agents env sid r
            _ ≤ m + 1 := by omega
      · intro kv2 hkv2 hmem
        rcases mem_updateR kv2 hkv2 with hm | hm
        · exact hready kv2 hm (List.mem_cons_of_mem _ hmem)
        · exfalso
          exact hnd2.1 (hm.1 ▸ hmem)

lemma mem_depReady (approved : List String) (subtasks : List SubtaskSpec) :
    ∀ (q : List String) (x : String),
      x ∈ depReady approved subtasks q → x ∈ q ∨ x ∉ approved := by
  simp only [depReady]
  induction subtasks with
  | nil => intro q x h; exact Or.inl h
  | cons st rest ih =>
    intro q x h
    simp only [List.foldl_cons] at h
    by_cases hc : st.id ∈ approved ∨ st.id ∈ q
    · rw [if_pos hc] at h
      exact ih q x h
    · rw [if_neg hc] at h
      by_cases hd : st.depends_on ≠ []
          ∧ st.depends_on.all (fun d => approved.contains d) = true
      · rw [if_pos hd] at h
        rcases ih _ x h with hq | hq
        · rcases List.mem_append.mp hq with h2 | h2
          · exact Or.inl h2
          · right
            rw [List.mem_singleton.mp h2]
            exact fun hx => hc (Or.inl hx)
        · exact Or.inr hq
      · rw [if_neg hd] at h
        exact ih q x h

lemma depReady_nodup (approved : List String) (subtasks : List SubtaskSpec) :
    ∀ q : List String, q.Nodup → (depReady approved subtasks q).Nodup := by
  simp only [depReady]
  induction subtasks with
  | nil => intro q h; exact h
  | cons st rest ih =>
    intro q h
    simp only [List.foldl_cons]
    by_cases hc : st.id ∈ approved ∨ st.id ∈ q
    · rw [if_pos hc]
      exact ih q h
    · rw [if_neg hc]
      by_cases hd : st.depends_on ≠ []
          ∧ st.depends_on.all (fun d => approved.contains d) = true
      · rw [if_pos hd]
        refine ih _ ?_
        rw [List.nodup_append]
        exact ⟨h, List.nodup_singleton _,
          by simpa using fun hx (hy : st.id ∈ [st.id]) => hc (Or.inr hx)⟩
      · rw [if_neg hd]
        exact ih q h

lemma needsRev_spec (m : ℕ) (env : StepEnv) (l : List (String × SubtaskResult))
    (hnd : (l.map Prod.fst).Nodup) (k : String) (r0 : SubtaskResult)
    (hmem : (k, r0) ∈ l) :
    (k ∈ ((l.map (fun kv => (kv.1, review_single m env kv.2))).filter
        (fun kv => kv.2.2)).map (fun kv => kv.1))
      ↔ (review_single m env r0).2 = true := by
  constructor
  · intro h
    rcases List.mem_map.mp h with ⟨kv, hkv, hfst⟩
    have hf := List.mem_filter.mp hkv
    rcases List.mem_map.mp hf.1 with ⟨kv0, hkv0, hpair⟩
    have hk1 : kv0.1 = k := by rw [← hfst, ← hpair]
    have hr : (k, kv0.2) ∈ l := by
      have : kv0 = (kv0.1, kv0.2) := rfl
      rw [hk1] at this
      exact this ▸ hkv0
    have heq : kv0.2 = r0 := keys_nodup_unique hnd hr hmem
    have hflag : kv.2.2 = true := by simpa using hf.2
    rw [← hpair] at hflag
    rw [← heq]
    exact hflag
  · intro h
    refine List.mem_map.mpr ⟨(k, review_single m env r0), ?_, rfl⟩
    refine List.mem_filter.mpr ⟨?_, by simpa using h⟩
    exact List.mem_map.mpr ⟨(k, r0), hmem, rfl⟩

/-! ### The run invariants for claims C5 and C6 -/

lemma executing_results (agents : List String) (env : StepEnv) (s : OState) :
    (executing_node agents env s).results = s.results
    ∨ (executing_node agents env s).results = execFold agents env s.results s.ready_queue := by
  rw [executing_node]
  by_cases hq : s.ready_queue = []
  · rw [if_pos hq]
    exact Or.inl rfl
  · rw [if_neg hq, execute_parallel_sync, if_neg hq]
    by_cases hs : env.stop = true
    · rw [if_pos hs]
      exact Or.inl rfl
    · rw [if_neg hs]
      by_cases hb : (match env.budget with
          | some b => decide (b ≤ 0) | none => false) = true
      · rw [if_pos hb]
        exact Or.inl rfl
      · rw [if_neg hb]
        exact Or.inr rfl

lemma executing_fields (agents : List String) (env : StepEnv) (s : OState) :
    (executing_node agents env s).phase = "reviewing"
    ∧ (executing_node agents env s).ready_queue = []
    ∧ (executing_node agents env s).max_revisions = s.max_revisions
    ∧ (executing_node agents env s).subtasks = s.subtasks := by
  rw [executing_node]
  by_cases hq : s.ready_queue = [] <;> simp [hq]

lemma reviewing_results (env : StepEnv) (s : OState) :
    (reviewing_node env s).results
      = s.results.map (fun kv => (kv.1, (review_single s.max_revisions env kv.2).1)) := by
  rw [reviewing_node]
  simp only [List.map_map]
  split <;> rfl

lemma reviewing_ready (env : StepEnv) (s : OState) :
    (reviewing_node env s).ready_queue = []
    ∨ (reviewing_node env s).ready_queue
      = depReady
          ((((s.results.map (fun kv => (kv.1, (review_single s.max_revisions env kv.2).1))).filter
            (fun kv => kv.2.review_verdict = "approve")).map (fun kv => kv.1)))
          s.subtasks
          (((s.results.map (fun kv => (kv.1, review_single s.max_revisions env kv.2))).filter
            (fun kv => kv.2.2)).map (fun kv => kv.1)) := by
  rw [reviewing_node]
  simp only [List.map_map]
  split
  · exact Or.inl rfl
  · exact Or.inr rfl

lemma reviewing_fields (env : StepEnv) (s : OState) :
    (reviewing_node env s).max_revisions = s.max_revisions
    ∧ (reviewing_node env s).subtasks = s.subtasks := by
  rw [reviewing_node]
  split <;> exact ⟨rfl, rfl⟩

lemma graphStep_max_revisions (agents : List String) (env : StepEnv) (s : OState) :
    (graphStep agents env s).max_revisions = s.max_revisions := by
  rw [graphStep]
  split
  · exact (executing_fields agents env s).2.2.1
  · split
    · exact (reviewing_fields env s).1
    · split <;> rfl

lemma executing_preserves_C5 (agents : List String) (env : StepEnv) (s : OState)
    (h : InvC5 s) :
    InvC5 (executing_node agents env s)
    ∧ ∀ sid r, lookupR s.results sid = some r → r.review_verdict = "approve" →
        lookupR (executing_node agents env s).results sid = some r := by
  obtain ⟨hnd, hgood, hnr⟩ := h
  obtain ⟨_, hready, hmax, _⟩ := executing_fields agents env s
  have horigin : ∀ kv ∈ (executing_node agents env s).results,
      kv ∈ s.results ∨ kv.2.review_verdict ≠ "approve" := by
    rcases executing_results agents env s with he | he <;> rw [he]
    · intro kv hkv; exact Or.inl hkv
    · exact execFold_entry_origin agents env s.results s.ready_queue
        (fun kv hm ha hap => hnr kv hm hap ha) s.ready_queue s.results
        (fun kv hkv => Or.inl hkv) (fun x hx => hx)
  refine ⟨⟨?_, ?_, ?_⟩, ?_⟩
  · rcases executing_results agents env s with he | he <;> rw [he]
    · exact hnd
    · rw [execFold_map_fst]
      exact hnd
  · intro kv hkv hap
    rcases horigin kv hkv with hm | hm
    · rw [hmax]
      exact hgood kv hm hap
    · exact absurd hap hm
  · intro kv _ _
    rw [hready]
    exact List.not_mem_nil _
  · intro sid r hl hap
    have hnm : sid ∉ s.ready_queue := hnr (sid, r) (lookupR_mem hl) hap
    rcases executing_results agents env s with he | he <;> rw [he]
    · exact hl
    · rw [execFold_lookup_not_mem agents env s.ready_queue s.results sid hnm]
      exact hl

lemma post_approved_mem (env : StepEnv) (s : OState) (kv : String × SubtaskResult)
    (hkv : kv ∈ (reviewing_node env s).results)
    (hap : kv.2.review_verdict = "approve") :
    kv.1 ∈ (((s.results.map (fun kv => (kv.1, (review_single s.max_revisions env kv.2).1))).filter
        (fun kv => kv.2.review_verdict = "approve")).map (fun kv => kv.1)) := by
  rw [reviewing_results] at hkv
  exact List.mem_map.mpr ⟨kv, List.mem_filter.mpr ⟨hkv, by simpa using hap⟩, rfl⟩

lemma reviewing_preserves_C5 (env : StepEnv) (s : OState) (h : InvC5 s) :
    InvC5 (reviewing_node env s)
    ∧ ∀ sid r, lookupR s.results sid = some r → r.review_verdict = "approve" →
        ∃ r', lookupR (reviewing_node env s).results sid = some r'
          ∧ r'.review_verdict = "approve" := by
  obtain ⟨hnd, hgood, _⟩ := h
  have hmax := (reviewing_fields env s).1
  have hkeys : ((reviewing_node env s).results.map Prod.fst) = s.results.map Prod.fst := by
    rw [reviewing_results, List.map_map]
    rfl
  refine ⟨⟨?_, ?_, ?_⟩, ?_⟩
  · rw [hkeys]
    exact hnd
  · intro kv hkv hap
    rw [reviewing_results] at hkv
    rcases List.mem_map.mp hkv with ⟨kv0, hkv0, hpair⟩
    rw [hmax, ← hpair]
    rw [← hpair] at hap
    exact review_single_approve_good s.max_revisions env kv0.2 hap
  · intro kv hkv hap
    rcases reviewing_ready env s with hr | hr
    · rw [hr]
      exact List.not_mem_nil _
    · rw [hr]
      intro hin
      rcases mem_depReady _ _ _ _ hin with hneeds | hnap
      · -- kv.1 flagged for revision, yet approved: impossible with unique keys
        rcases List.mem_map.mp (by rw [reviewing_results] at hkv; exact hkv)
          with ⟨kv0, hkv0, hpair⟩
        have hk1 : kv0.1 = kv.1 := by rw [← hpair]
        have hflag := (needsRev_spec s.max_revisions env s.results hnd kv.1 kv0.2
          (by rw [← hk1]; exact hkv0)).mp hneeds
        rcases review_single_flag_rr s.max_revisions env kv0.2 hflag with hv | hv <;>
          · rw [← hpair] at hap
            rw [hap] at hv
            simp at hv
      · exact hnap (post_approved_mem env s kv hkv hap)
  · intro sid r hl hap
    refine ⟨(review_single s.max_revisions env r).1, ?_, ?_⟩
    · rw [reviewing_results]
      have h2 : lookupR (s.results.map (fun kv =>
            (kv.1, (review_single s.max_revisions env kv.2).1))) sid
          = (lookupR s.results sid).map
              (fun x => (review_single s.max_revisions env x).1) :=
        lookupR_valmap (fun x => (review_single s.max_revisions env x).1) s.results sid
      rw [h2, hl]
      rfl
    · exact (review_single_approve_stable s.max_revisions env r hap
        (hgood (sid, r) (lookupR_mem hl) hap)).1

lemma graphStep_preserves_C5 (agents : List String) (env : StepEnv) (s : OState)
    (h : InvC5 s) :
    InvC5 (graphStep agents env s)
    ∧ ∀ sid r, lookupR s.results sid = some r → r.review_verdict = "approve" →
        ∃ r', lookupR (graphStep agents env s).results sid = some r'
          ∧ r'.review_verdict = "approve" := by
  rw [graphStep]
  split
  · obtain ⟨h1, h2⟩ := executing_preserves_C5 agents env s h
    exact ⟨h1, fun sid r hl hap => ⟨r, h2 sid r hl hap, hap⟩⟩
  · split
    · exact reviewing_preserves_C5 env s h
    · split
      · exact ⟨⟨h.1, fun kv hkv hap => h.2.1 kv hkv hap,
          fun kv hkv hap => h.2.2 kv hkv hap⟩,
          fun sid r hl hap => ⟨r, hl, hap⟩⟩
      · exact ⟨h, fun sid r hl hap => ⟨r, hl, hap⟩⟩

/-- Claim C5: once a subtask's verdict is `approve` it stays `approve`
through every subsequent graph step, and the subtask never appears in the
ready queue again (hence is never re-dispatched: `executing_node` only runs
queued subtasks).  `InvC5` holds of every state the graph produces after
planning (planning starts all verdicts at `pending` with an empty-per-dict
results map). -/
theorem claim_C5_approve_monotonic (agents : List String) (envs : List StepEnv)
    (s : OState) (sid : String) (r : SubtaskResult)
    (hinv : InvC5 s) (hr : lookupR s.results sid = some r)
    (ha : r.review_verdict = "approve") :
    (∃ r', lookupR (runSteps agents s envs).results sid = some r'
        ∧ r'.review_verdict = "approve")
    ∧ sid ∉ (runSteps agents s envs).ready_queue := by
  induction envs generalizing s r with
  | nil =>
    exact ⟨⟨r, hr, ha⟩, hinv.2.2 (sid, r) (lookupR_mem hr) ha⟩
  | cons env rest ih =>
    obtain ⟨hinv2, hpres⟩ := graphStep_preserves_C5 agents env s hinv
    obtain ⟨r', hl', ha'⟩ := hpres sid r hr ha
    exact ih (graphStep agents env s) r' hinv2 hl' ha'

/-- Witness for claim C5 at a concrete state and step list. -/
theorem claim_C5_approve_monotonic_witness :
    (∃ r', lookupR (runSteps default_agents c5_state [c5_env, c5_env]).results "1"
        = some r' ∧ r'.review_verdict = "approve")
    ∧ "1" ∉ (runSteps default_agents c5_state [c5_env, c5_env]).ready_queue :=
  claim_C5_approve_monotonic default_agents [c5_env, c5_env] c5_state "1"
    { subtask_id := "1", agent_type := "backend",
      description := "Implement the API", output := "done",
      review_verdict := "approve", review_score := 8, attempts := 1 }
    (by refine ⟨by decide, ?_, ?_⟩ <;> decide) (by decide) (by decide)

lemma executing_preserves_C6 (agents : List String) (env : StepEnv) (s : OState)
    (h : InvC6 s) : InvC6 (executing_node agents env s) := by
  obtain ⟨hndk, hndr, hle, hready⟩ := h
  obtain ⟨_, hqe, hmax, _⟩ := executing_fields agents env s
  refine ⟨?_, ?_, ?_, ?_⟩
  · rcases executing_results agents env s with he | he <;> rw [he]
    · exact hndk
    · rw [execFold_map_fst]
      exact hndk
  · rw [hqe]
    exact List.nodup_nil
  · intro kv hkv
    rw [hmax]
    rcases executing_results agents env s with he | he <;> rw [he] at hkv
    · exact hle kv hkv
    · exact execFold_attempts agents env s.max_revisions s.ready_queue s.results
        hndr hle hready kv hkv
  · intro kv _ hm
    rw [hqe] at hm
    exact absurd hm (List.not_mem_nil _)

lemma needs_bound (env : StepEnv) (s : OState)
    (hndk : (s.results.map Prod.fst).Nodup)
    (kv : String × SubtaskResult) (hkv : kv ∈ (reviewing_node env s).results)
    (hneeds : kv.1 ∈ (((s.results.map
        (fun kv => (kv.1, review_single s.max_revisions env kv.2))).filter
        (fun kv => kv.2.2)).map (fun kv => kv.1))) :
    kv.2.attempts ≤ s.max_revisions := by
  rw [reviewing_results] at hkv
  rcases List.mem_map.mp hkv with ⟨kv0, hkv0, hpair⟩
  have hk1 : kv0.1 = kv.1 := by rw [← hpair]
  have hflag := (needsRev_spec s.max_revisions env s.results hndk kv.1 kv0.2
    (by rw [← hk1]; exact hkv0)).mp hneeds
  have hlt := review_single_flag_attempts s.max_revisions env kv0.2 hflag
  have hatt : kv.2.attempts = kv0.2.attempts := by
    rw [← hpair]
    exact review_single_attempts s.max_revisions env kv0.2
  omega

lemma reviewing_preserves_C6 (env : StepEnv) (s : OState)
    (hRD : ReviewerDomain env) (h : InvC6 s) : InvC6 (reviewing_node env s) := by
  obtain ⟨hndk, _, hle, _⟩ := h
  have hmax := (reviewing_fields env s).1
  have hkeys : ((reviewing_node env s).results.map Prod.fst) = s.results.map Prod.fst := by
    rw [reviewing_results, List.map_map]
    rfl
  have hneedsnd : ((((s.results.map
      (fun kv => (kv.1, review_single s.max_revisions env kv.2))).filter
      (fun kv => kv.2.2)).map (fun kv => kv.1))).Nodup := by
    have hsub : (((s.results.map
        (fun kv => (kv.1, review_single s.max_revisions env kv.2))).filter
        (fun kv => kv.2.2)).map (fun kv => kv.1)).Sublist
        ((s.results.map
          (fun kv => (kv.1, review_single s.max_revisions env kv.2))).map
          (fun kv => kv.1)) :=
      (List.filter_sublist _).map _
    refine hsub.nodup ?_
    rw [List.map_map]
    exact hndk
  refine ⟨?_, ?_, ?_, ?_⟩
  · rw [hkeys]
    exact hndk
  · rcases reviewing_ready env s with hr | hr <;> rw [hr]
    · exact List.nodup_nil
    · exact depReady_nodup _ s.subtasks _ hneedsnd
  · intro kv hkv
    rw [hmax]
    rw [reviewing_results] at hkv
    rcases List.mem_map.mp hkv with ⟨kv0, hkv0, hpair⟩
    have : kv.2.attempts = kv0.2.attempts := by
      rw [← hpair]
      exact review_single_attempts s.max_revisions env kv0.2
    rw [this]
    exact hle kv0 hkv0
  · intro kv hkv hm
    rw [hmax]
    rcases reviewing_ready env s with hr | hr
    · rw [hr] at hm
      exact absurd hm (List.not_mem_nil _)
    · rw [hr] at hm
      rcases mem_depReady _ _ _ _ hm with hneeds | hnap
      · exact needs_bound env s hndk kv hkv hneeds
      · -- not approved: its verdict is revise/redo, so it is flagged
        rcases List.mem_map.mp (by rw [reviewing_results] at hkv; exact hkv)
          with ⟨kv0, hkv0, hpair⟩
        have hdom := review_single_verdict_domain s.max_revisions env kv0.2
          (hRD kv0.2.description kv0.2.output)
        rcases hdom with hv | hv
        · exfalso
          apply hnap
          refine post_approved_mem env s kv hkv ?_
          rw [← hpair]
          exact hv
        · have hflag := review_single_rr_flag s.max_revisions env kv0.2 hv
          have hk1 : kv0.1 = kv.1 := by rw [← hpair]
          have hneeds : kv.1 ∈ (((s.results.map
              (fun kv => (kv.1, review_single s.max_revisions env kv.2))).filter
              (fun kv => kv.2.2)).map (fun kv => kv.1)) :=
            (needsRev_spec s.max_revisions env s.results hndk kv.1 kv0.2
              (by rw [← hk1]; exact hkv0)).mpr hflag
          exact needs_bound env s hndk kv hkv hneeds

lemma graphStep_preserves_C6 (agents : List String) (env : StepEnv) (s : OState)
    (hRD : ReviewerDomain env) (h : InvC6 s) : InvC6 (graphStep agents env s) := by
  rw [graphStep]
  split
  · exact executing_preserves_C6 agents env s h
  · split
    · exact reviewing_preserves_C6 env s hRD h
    · split
      · exact ⟨h.1, h.2.1, fun kv hkv => h.2.2.1 kv hkv,
          fun kv hkv hm => h.2.2.2 kv hkv hm⟩
      · exact h

lemma runSteps_preserves_C6 (agents : List String) (envs : List StepEnv) :
    ∀ s : OState, InvC6 s → (∀ e ∈ envs, ReviewerDomain e) →
      InvC6 (runSteps agents s envs)
      ∧ (runSteps agents s envs).max_revisions = s.max_revisions := by
  induction envs with
  | nil => intro s h _; exact ⟨h, rfl⟩
  | cons env rest ih =>
    intro s h hRD
    have h1 := graphStep_preserves_C6 agents env s (hRD env (by simp)) h
    obtain ⟨h2, h3⟩ := ih (graphStep agents env s) h1
      (fun e he => hRD e (List.mem_cons_of_mem _ he))
    refine ⟨h2, ?_⟩
    show (runSteps agents (graphStep agents env s) rest).max_revisions
      = s.max_revisions
    rw [h3, graphStep_max_revisions]

lemma review_single_forced_approve (m : ℕ) (env : StepEnv) (r : SubtaskResult)
    (hg : isEmptyOrError r.output = false)
    (hv : env.verdict r.description r.output = "revise"
      ∨ env.verdict r.description r.output = "redo")
    (hle : m ≤ r.attempts) :
    (review_single m env r).1.review_verdict = "approve"
    ∧ (review_single m env r).2 = false := by
  by_cases h1 : r.review_verdict ≠ "pending" ∧ isEmptyOrError r.output = false
      ∧ r.review_verdict = "approve"
  · rw [review_single_skip m env r h1]
    exact ⟨h1.2.2, rfl⟩
  · rw [review_single_rev m env r h1 hg]
    have hva : reviewedVerdict m env r = "approve" := by
      rw [reviewedVerdict, if_pos ⟨hv, hle⟩]
    refine ⟨hva, ?_⟩
    rw [decide_eq_false]
    rw [hva]
    simp

/-- Claim C6: throughout a run (from any state satisfying `InvC6`, which the
post-planning state does), provided the reviewer returns verdicts in
{approve, revise, redo} (its documented interface and the declared
`Literal` type), no subtask's attempts counter ever exceeds
`max_revisions + 1`; and when a subtask at the cap gets a revise/redo
outcome, the review loop force-approves it with `needs_revision` left
untouched (no further dispatch) instead of re-queueing it. -/
theorem claim_C6_attempts_capped (agents : List String) (envs : List StepEnv)
    (s : OState) (hinv : InvC6 s) (hRD : ∀ e ∈ envs, ReviewerDomain e) :
    (∀ kv ∈ (runSteps agents s envs).results,
      kv.2.attempts ≤ s.max_revisions + 1)
    ∧ (∀ (m : ℕ) (env : StepEnv) (r : SubtaskResult),
        isEmptyOrError r.output = false →
        (env.verdict r.description r.output = "revise"
          ∨ env.verdict r.description r.output = "redo") →
        m ≤ r.attempts →
        (review_single m env r).1.review_verdict = "approve"
        ∧ (review_single m env r).2 = false) := by
  obtain ⟨h1, h2⟩ := runSteps_preserves_C6 agents envs s hinv hRD
  refine ⟨?_, review_single_forced_approve⟩
  intro kv hkv
  have := h1.2.2.1 kv hkv
  rw [h2] at this
  exact this

/-- Witness for claim C6 at concrete inputs. -/
theorem claim_C6_attempts_capped_witness :
    ((∀ kv ∈ (runSteps default_agents c2_state []).results, kv.2.attempts ≤ 3)
      ∧ (review_single 2 { verdict := fun _ _ => "redo" : StepEnv }
          { subtask_id := "1", agent_type := "backend", description := "d",
            output := "draft", attempts := 2 }).1.review_verdict = "approve"
      ∧ (review_single 2 { verdict := fun _ _ => "redo" : StepEnv }
          { subtask_id := "1", agent_type := "backend", description := "d",
            output := "draft", attempts := 2 }).2 = false) := by
  have h := claim_C6_attempts_capped default_agents [] c2_state
    (by refine ⟨by decide, by decide, ?_, ?_⟩ <;> decide)
    (by intro e he; simp at he)
  have h2 := h.2 2 { verdict := fun _ _ => "redo" : StepEnv }
    { subtask_id := "1", agent_type := "backend", description := "d",
      output := "draft", attempts := 2 } (by decide) (Or.inr rfl) (by decide)
  exact ⟨h.1, h2.1, h2.2⟩

/-! ### Execution-bridge self-edit safety (claim C3) -/

lemma check_self_edit_safety_eq_nil_iff (subtasks : List SubtaskIn) :
    check_self_edit_safety subtasks = [] ↔
      ∀ st ∈ subtasks, ∀ p ∈ SELF_EDIT_PROTECTED_FILES,
        ¬ containsSub (pyLower st.description.data) (pyLower p.data) = true := by
  rw [check_self_edit_safety]
  constructor
  · intro h st hst p hp hc
    have hmem : ((SELF_EDIT_PROTECTED_FILES.filter (fun p =>
        containsSub (pyLower st.description.data) (pyLower p.data))).map (fun p =>
          "Subtask \'" ++ st.id ++ "\' references " ++ p)) ∈
        (subtasks.map (fun st =>
          (SELF_EDIT_PROTECTED_FILES.filter (fun p =>
            containsSub (pyLower st.description.data) (pyLower p.data))).map (fun p =>
              "Subtask \'" ++ st.id ++ "\' references " ++ p))) :=
      List.mem_map.mpr ⟨st, hst, rfl⟩
    have hnil := List.flatten_eq_nil_iff.mp h _ hmem
    rw [List.map_eq_nil_iff] at hnil
    have : p ∈ SELF_EDIT_PROTECTED_FILES.filter (fun p =>
        containsSub (pyLower st.description.data) (pyLower p.data)) :=
      List.mem_filter.mpr ⟨hp, by simpa using hc⟩
    rw [hnil] at this
    exact absurd this (List.not_mem_nil _)
  · intro h
    rw [List.flatten_eq_nil_iff]
    intro l hl
    rcases List.mem_map.mp hl with ⟨st, hst, hpair⟩
    rw [← hpair, List.map_eq_nil_iff, List.filter_eq_nil_iff]
    intro p hp
    simpa using h st hst p hp

lemma check_self_edit_safety_ne_nil (subtasks : List SubtaskIn)
    (h : ∃ st ∈ subtasks, ∃ p ∈ SELF_EDIT_PROTECTED_FILES,
      containsSub (pyLower st.description.data) (pyLower p.data) = true) :
    check_self_edit_safety subtasks ≠ [] := by
  intro hnil
  rcases h with ⟨st, hst, p, hp, hc⟩
  exact (check_self_edit_safety_eq_nil_iff subtasks).mp hnil st hst p hp hc

/-- Claim C3 counterexample: on a self-edit plan whose subtask references a
protected path, `execute_plan` does return the safety-violation failure —
but only AFTER a Runner call has already occurred: the preflight
`is_runner_online()` health call.  The recorded call trace at return is
`[health]`, not `[]`, refuting "before any Runner call occurs". -/
theorem claim_C3_counterexample :
    (execute_plan c3_oracle true "athena" "tweak the safety layer" c3_subtasks
      "discord" false 0).1.success = false
    ∧ (∃ t, (execute_plan c3_oracle true "athena" "tweak the safety layer"
        c3_subtasks "discord" false 0).1.error
        = "Self-edit safety violation: " ++ t)
    ∧ (execute_plan c3_oracle true "athena" "tweak the safety layer" c3_subtasks
      "discord" false 0).2.trace = [RunnerCallKind.health] := by
  refine ⟨by decide, ⟨"Subtask \'1\' references src/runner/safety.py. "
    ++ "These files cannot be modified autonomously.", by decide⟩, by decide⟩

/-- Claim C3 (amended): for every self-edit run with the runner reachable
and within the subtask cap, where some subtask description contains a
protected-path denylist entry (case-insensitive substring), `execute_plan`
returns `success = false` with a safety-violation error, before any
repository mutation and before any Runner call other than the preflight
health check (the recorded trace is exactly `[health]`). -/
theorem claim_C3_self_edit_guard (o : RunnerOracle) (auto_pr : Bool)
    (project_id plan : String) (subtasks : List SubtaskIn)
    (requested_by : String) (auto_approve : Bool) (tsec : ℕ)
    (hse : project_id = "ai-companion" ∨ project_id = "athena")
    (honline : o.healthOk = true)
    (hcount : subtasks.length ≤ MAX_SUBTASKS_PER_EXECUTION)
    (hviol : ∃ st ∈ subtasks, ∃ p ∈ SELF_EDIT_PROTECTED_FILES,
      containsSub (pyLower st.description.data) (pyLower p.data) = true) :
    (execute_plan o auto_pr project_id plan subtasks requested_by
      auto_approve tsec).1.success = false
    ∧ (∃ t, (execute_plan o auto_pr project_id plan subtasks requested_by
        auto_approve tsec).1.error = "Self-edit safety violation: " ++ t)
    ∧ (execute_plan o auto_pr project_id plan subtasks requested_by
      auto_approve tsec).2.trace = [RunnerCallKind.health] := by
  have hsed : is_self_edit project_id = true := by
    rcases hse with h | h <;> rw [h] <;> decide
  have heq : execute_plan o auto_pr project_id plan subtasks requested_by
      auto_approve tsec
      = ({ project_id := project_id,
           error := "Self-edit safety violation: "
             ++ joinComma (check_self_edit_safety subtasks)
             ++ ". These files cannot be modified autonomously." },
         callHealth ({} : BridgeRun)) := by
    rw [execute_plan]
    rw [if_neg (by rw [honline]; simp)]
    rw [if_neg (by omega)]
    rw [if_pos ⟨by rw [hsed], check_self_edit_safety_ne_nil subtasks hviol⟩]
  rw [heq]
  refine ⟨rfl, ⟨joinComma (check_self_edit_safety subtasks)
    ++ ". These files cannot be modified autonomously.", ?_⟩, rfl⟩
  simp [String.append_assoc]

/-- Witness for the amended claim C3 at a concrete input. -/
theorem claim_C3_self_edit_guard_witness :
    (execute_plan c3_oracle true "athena" "tweak the safety layer" c3_subtasks
      "discord" false 0).1.success = false
    ∧ (∃ t, (execute_plan c3_oracle true "athena" "tweak the safety layer"
        c3_subtasks "discord" false 0).1.error
        = "Self-edit safety violation: " ++ t)
    ∧ (execute_plan c3_oracle true "athena" "tweak the safety layer" c3_subtasks
      "discord" false 0).2.trace = [RunnerCallKind.health] :=
  claim_C3_self_edit_guard c3_oracle true "athena" "tweak the safety layer"
    c3_subtasks "discord" false 0 (Or.inr rfl) rfl (by decide) (by decide)


/-! ### Execution-bridge PR fallback (claim C7) -/

lemma subtask_loop_cons (o : RunnerOracle) (st : SubtaskIn) (rest : List SubtaskIn)
    (b : BridgeRun) (acc : List SubtaskOutcome) (allS : Bool) :
    subtask_loop o (st :: rest) b acc allS
      = if st.description = "" then
          subtask_loop o rest b
            (acc ++ [{ id := st.id, success := false, error := "Empty description" }]) allS
        else
          match callClaude o b with
          | (.ok cr, b1) =>
              subtask_loop o rest b1
                (acc ++ [{ id := st.id, agent := st.agent,
                           success := cr.exitCode = 0,
                           output := cr.stdout.take 2000,
                           error := if cr.exitCode ≠ 0 then cr.stderr.take 500 else "" }])
                (allS && (cr.exitCode = 0))
          | (.error e, b1) =>
              subtask_loop o rest b1
                (acc ++ [{ id := st.id, agent := st.agent, success := false,
                           output := "", error := e.toMessage }])
                false := rfl

lemma subtask_loop_ok (o : RunnerOracle) :
    ∀ (subtasks : List SubtaskIn) (b : BridgeRun) (acc : List SubtaskOutcome),
      (∀ st ∈ subtasks, st.description ≠ "") →
      (∀ k, k < subtasks.length →
        ∃ cr, o.claudeResp (b.nClaude + k) = Except.ok cr ∧ cr.exitCode = 0) →
      ∃ b3 outcomes, subtask_loop o subtasks b acc true = (b3, outcomes, true)
        ∧ b3.nCmd = b.nCmd ∧ b3.nStatus = b.nStatus := by
  intro subtasks
  induction subtasks with
  | nil => intro b acc _ _; exact ⟨b, acc, rfl, rfl, rfl⟩
  | cons st rest ih =>
    intro b acc hdesc hcl
    have hd0 : ¬ st.description = "" := hdesc st (List.mem_cons_self _ _)
    obtain ⟨cr, hcr, hexit⟩ := hcl 0 (by simp)
    rw [Nat.add_zero] at hcr
    rw [subtask_loop_cons, if_neg hd0]
    simp only [callClaude, hcr]
    have hallS : (true && decide (cr.exitCode = 0)) = true := by simp [hexit]
    rw [hallS]
    obtain ⟨b3, outs, heq, hcmd, hst⟩ := ih
      ({ b with trace := b.trace ++ [RunnerCallKind.runClaude], nClaude := b.nClaude + 1 }) _
      (fun x hx => hdesc x (List.mem_cons_of_mem _ hx))
      (by
        intro k hk
        have h2 := hcl (k + 1) (by simpa using Nat.succ_lt_succ hk)
        have h3 : b.nClaude + (k + 1) = b.nClaude + 1 + k := by omega
        rw [h3] at h2
        exact h2)
    exact ⟨b3, outs, heq, hcmd, hst⟩

lemma finalize_pr_gh_merge (o : RunnerOracle) (auto_pr auto_approve : Bool)
    (plan branch_name : String) (result : ExecutionResult) (b : BridgeRun)
    (hpr : (auto_pr || auto_approve) = true)
    (hdirty : 0 < dirtyOf result.git_status)
    (e : RunnerErr) (hprr : o.prResp = .error e)
    (hgh : containsSub e.toMessage.data ("PR creation failed".data) = true
      ∨ containsSub (pyLower e.toMessage.data) ("gh".data) = true)
    (cA : CmdResultR) (hcA : o.cmdResp b.nCmd = .ok cA)
    (cB : CmdResultR) (hcB : o.cmdResp (b.nCmd + 1) = .ok cB) :
    (finalize_pr o auto_pr auto_approve plan branch_name true result b).1
      = { result with branch := branch_name ++ " (merged to main)",
                      error := "", success := true } := by
  rw [finalize_pr]
  rw [if_pos (by exact ⟨by simp [hpr], hdirty⟩)]
  simp only [callPr, hprr]
  have hcond : (containsSub e.toMessage.data ("PR creation failed".data)
      || containsSub (pyLower e.toMessage.data) ("gh".data)) = true := by
    rcases hgh with h | h <;> simp [h]
  simp only [hcond, if_true, callCmd]
  simp only [hcA, hcB]

/-- Claim C7: in `execute_plan`, when every subtask succeeded (runner online,
clean tree, branch created, every Claude call exits 0 on a non-self-edit
project), staged changes exist, a PR was requested, and the pull-request
step fails with an operational error whose message matches the source's
detection ("PR creation failed" or a lower-cased "gh" substring, e.g. a
missing gh hosting CLI) while the checkout/merge commands complete, then
the feature branch is merged into main locally, the result's branch field
is annotated "(merged to main)", and the returned ExecutionResult has
`success = true` with an empty error — the work is not dropped. -/
theorem claim_C7_pr_fallback (o : RunnerOracle) (auto_pr auto_approve : Bool)
    (project_id plan : String) (subtasks : List SubtaskIn)
    (requested_by : String) (tsec : ℕ)
    (honline : o.healthOk = true)
    (hnse : is_self_edit project_id = false)
    (hcount : subtasks.length ≤ MAX_SUBTASKS_PER_EXECUTION)
    (st0 : GitStatusR) (hst0 : o.gitStatusResp 0 = .ok st0)
    (hclean : st0.dirtyCount = 0)
    (c0 : CmdResultR) (hc0 : o.cmdResp 0 = .ok c0) (hc0e : c0.exitCode = 0)
    (hdesc : ∀ st ∈ subtasks, st.description ≠ "")
    (hclaude : ∀ k, k < subtasks.length →
      ∃ cr, o.claudeResp k = Except.ok cr ∧ cr.exitCode = 0)
    (stF : GitStatusR) (hstF : o.gitStatusResp 1 = .ok stF)
    (hdirty : 0 < stF.dirtyCount)
    (hpr : (auto_pr || auto_approve) = true)
    (e : RunnerErr) (hprr : o.prResp = .error e)
    (hgh : containsSub e.toMessage.data ("PR creation failed".data) = true
      ∨ containsSub (pyLower e.toMessage.data) ("gh".data) = true)
    (cA : CmdResultR) (hcA : o.cmdResp 2 = .ok cA)
    (cB : CmdResultR) (hcB : o.cmdResp 3 = .ok cB) :
    (execute_plan o auto_pr project_id plan subtasks requested_by
        auto_approve tsec).1.branch
      = generate_branch_name plan requested_by tsec ++ " (merged to main)"
    ∧ (execute_plan o auto_pr project_id plan subtasks requested_by
        auto_approve tsec).1.success = true
    ∧ (execute_plan o auto_pr project_id plan subtasks requested_by
        auto_approve tsec).1.error = ""
    ∧ (execute_plan o auto_pr project_id plan subtasks requested_by
        auto_approve tsec).1.pr_url = "" := by
  rw [execute_plan]
  rw [if_neg (by rw [honline]; simp)]
  rw [if_neg (by omega)]
  rw [if_neg (by rw [hnse]; simp)]
  simp only [callStatus, callHealth]
  rw [hst0]
  dsimp only
  rw [if_neg (by omega)]
  simp only [callCmd]
  rw [hc0]
  dsimp only
  rw [if_neg (by rw [hc0e]; simp)]
  obtain ⟨b3, outs, hloop, hcmd3, hst3⟩ := subtask_loop_ok o subtasks
    ({ trace := [] ++ [RunnerCallKind.health] ++ [RunnerCallKind.gitStatus] ++ [RunnerCallKind.runCmd ("git checkout -b " ++ generate_branch_name plan requested_by tsec)], nStatus := 0 + 1, nCmd := 0 + 1, nClaude := 0 }) []
    hdesc (by intro k hk; simpa using hclaude k hk)
  rw [hloop]
  dsimp only
  rw [hnse]
  simp only [Bool.false_and, Bool.false_eq_true, if_false]
  simp only [Nat.zero_add] at hcmd3 hst3
  rw [hst3, hstF]
  dsimp only
  have hfin := finalize_pr_gh_merge o auto_pr auto_approve plan
    (generate_branch_name plan requested_by tsec)
    ({ project_id := project_id, branch := generate_branch_name plan requested_by tsec, subtask_results := outs, git_status := some { branch := stF.branch, dirty := stF.dirtyCount, files := List.take 20 stF.changedFiles }, pr_url := "", success := false, error := "" })
    ({ trace := b3.trace ++ [RunnerCallKind.runCmd "git add -A"] ++ [RunnerCallKind.gitStatus], nStatus := 1 + 1, nCmd := b3.nCmd + 1, nClaude := b3.nClaude })
    hpr hdirty e hprr hgh cA (by rw [hcmd3]; exact hcA) cB (by rw [hcmd3]; exact hcB)
  rw [hfin]
  refine ⟨rfl, by simp, rfl, rfl⟩

/-- Witness for claim C7 at a concrete oracle and plan. -/
theorem claim_C7_pr_fallback_witness :
    (execute_plan c7_oracle true "client-proj" "Add login page" c7_subtasks
        "discord" false 99999).1.branch
      = generate_branch_name "Add login page" "discord" 99999 ++ " (merged to main)"
    ∧ (execute_plan c7_oracle true "client-proj" "Add login page" c7_subtasks
        "discord" false 99999).1.success = true
    ∧ (execute_plan c7_oracle true "client-proj" "Add login page" c7_subtasks
        "discord" false 99999).1.error = ""
    ∧ (execute_plan c7_oracle true "client-proj" "Add login page" c7_subtasks
        "discord" false 99999).1.pr_url = "" :=
  claim_C7_pr_fallback c7_oracle true false "client-proj" "Add login page"
    c7_subtasks "discord" 99999 rfl (by decide) (by decide)
    { branch := "main", dirtyCount := 0, changedFiles := [] } rfl rfl
    { exitCode := 0, stdout := "", stderr := "", durationMs := 0 } rfl rfl
    (by decide)
    (fun k _ => ⟨{ exitCode := 0, stdout := "done", stderr := "", durationMs := 0 }, rfl, rfl⟩)
    { branch := "feature", dirtyCount := 3, changedFiles := ["a.py"] } rfl
    (by decide) rfl (.rejected "PR creation failed: gh not found") rfl
    (Or.inr (by decide))
    { exitCode := 0, stdout := "", stderr := "", durationMs := 0 } rfl
    { exitCode := 0, stdout := "", stderr := "", durationMs := 0 } rfl

end Athena
